import Mathlib

/-!
Verification of the report composer / parser / renderer core of the
`app-insights-reporter` bot (files `src/format_report.py` and
`src/post_to_slack.py`).

Strings are modelled as `List Char` (`Str`). Python's `str.lower()` is
modelled as ASCII lowering (all inputs of interest are ASCII); Python's
float division inside `int((count / max_count) * 20)` and the action-line
percentage is modelled as exact rational division truncated to an integer
(`Nat` division), which agrees with the source on every property stated
below. Fallible operations return `Option`.
-/

abbrev Str := List Char

/-- Python `\s` / `str.strip()` whitespace for the ASCII range. -/
def wsB (c : Char) : Bool :=
  c == ' ' || c == '\t' || c == '\n' || c == '\r' || c == '\x0b' || c == '\x0c'

/-- ASCII lowering, modelling `str.lower()` on the ASCII inputs used here. -/
def lowerC (c : Char) : Char :=
  if 'A' ≤ c ∧ c ≤ 'Z' then Char.ofNat (c.toNat + 32) else c

def lowerS (s : Str) : Str := s.map lowerC

/-- A character allowed by the regex class `[0-9,]`. -/
def numChar (c : Char) : Bool := c.isDigit || c == ','

def hasDigit (s : Str) : Bool := s.any (·.isDigit)

/-- Python `str.strip()`. -/
def pstrip (s : Str) : Str :=
  ((s.dropWhile wsB).reverse.dropWhile wsB).reverse

/-- Python `str.split('\n')`. -/
def splitNL : Str → List Str
  | [] => [[]]
  | c :: cs =>
    match splitNL cs with
    | [] => [[]]
    | h :: t => if c = '\n' then [] :: h :: t else (c :: h) :: t

/-- Python `str.replace(pat, rep)` (all non-overlapping occurrences,
scanning left to right), written with a structural fuel argument (one unit
per input character) so that it evaluates by kernel reduction; `pat` is
nonempty in every use below. -/
def replaceAllF (pat rep : Str) : Nat → Str → Str
  | 0, s => s
  | _ + 1, [] => []
  | f + 1, c :: cs =>
    if pat ≠ [] ∧ pat <+: (c :: cs) then
      rep ++ replaceAllF pat rep f ((c :: cs).drop pat.length)
    else
      c :: replaceAllF pat rep f cs

def replaceAll (pat rep s : Str) : Str := replaceAllF pat rep s.length s

/-- The digit character for `d ∈ [0,9]` (`str(n)` emits these). -/
def digitChar (d : Nat) : Char := "0123456789".data.getD d '0'

/-- Decimal digits of `n`, most significant first, with structural fuel. -/
def natDigitsF : Nat → Nat → Str
  | 0, _ => []
  | f + 1, n => if n = 0 then [] else natDigitsF f (n / 10) ++ [digitChar (n % 10)]

/-- Decimal digit characters of `n`, most significant first (`str(n)`). -/
def natDigits (n : Nat) : Str :=
  if n = 0 then ['0'] else natDigitsF n n

/-- Parse a digit string back to a number (most significant first). -/
def digitsToNat (s : Str) : Nat :=
  s.foldl (fun a c => a * 10 + (c.toNat - 48)) 0

/-- Insert a `','` after every 3 characters of a reversed digit string. -/
def group3 : Str → Str
  | d1 :: d2 :: d3 :: d4 :: rest => d1 :: d2 :: d3 :: ',' :: group3 (d4 :: rest)
  | s => s

/-- Python `f"{n:,}"`: decimal digits with thousands separators. -/
def fmtComma (n : Nat) : Str := (group3 (natDigits n).reverse).reverse

def stripCommas (s : Str) : Str := s.filter (· ≠ ',')

/-! ## `post_to_slack.create_bar_chart` (src/bots/app-insights-reporter/src/post_to_slack.py lines 18-22) -/

/-- `int((count / max_count) * 20) if max_count > 0 else 0`. -/
def barLength (count maxCount : Nat) : Nat :=
  if maxCount > 0 then count * 20 / maxCount else 0

/-- `"█" * bar_length + "░" * (20 - bar_length)` (a negative Python repeat
count yields the empty string, matching truncated `Nat` subtraction). -/
def create_bar_chart (count maxCount : Nat) : Str :=
  List.replicate (barLength count maxCount) '█' ++
    List.replicate (20 - barLength count maxCount) '░'

/-! ## Status emoji selection (src/format_report.py lines 47-53) -/

def statusEmoji (totalExceptions : Nat) : Str :=
  if totalExceptions > 5000 then ['🔴']
  else if totalExceptions > 2000 then ['🟡']
  else ['✅']

/-- C2: status indicator thresholds. -/
theorem c2_status_thresholds (n : Nat) :
    (n ≤ 2000 → statusEmoji n = ['✅']) ∧
    (2001 ≤ n ∧ n ≤ 5000 → statusEmoji n = ['🟡']) ∧
    (5000 < n → statusEmoji n = ['🔴']) := by
  refine ⟨fun h => ?_, fun h => ?_, fun h => ?_⟩ <;>
    simp only [statusEmoji] <;> split <;> first | rfl | omega | (split <;> first | rfl | omega)

theorem c2_status_thresholds_witness :
    (2000 ≤ 2000 ∧ statusEmoji 2000 = ['✅']) ∧
    (2001 ≤ 2001 ∧ 2001 ≤ 5000 ∧ statusEmoji 2001 = ['🟡']) ∧
    (2001 ≤ 5000 ∧ 5000 ≤ 5000 ∧ statusEmoji 5000 = ['🟡']) ∧
    (5000 < 5001 ∧ statusEmoji 5001 = ['🔴']) :=
  ⟨⟨le_refl _, (c2_status_thresholds 2000).1 (by omega)⟩,
   ⟨le_refl _, by omega, (c2_status_thresholds 2001).2.1 (by omega)⟩,
   ⟨by omega, le_refl _, (c2_status_thresholds 5000).2.1 (by omega)⟩,
   ⟨by omega, (c2_status_thresholds 5001).2.2 (by omega)⟩⟩

/-- C8: `count = 0` or `max_count = 0` never divides by zero and produces a
bar whose filled portion has length 0. -/
theorem c8_bar_chart_zero_guard (count maxCount : Nat)
    (h : count = 0 ∨ maxCount = 0) :
    barLength count maxCount = 0 ∧
    (create_bar_chart count maxCount).count '█' = 0 := by
  have hb : barLength count maxCount = 0 := by
    rcases h with h | h <;> simp [barLength, h]
  refine ⟨hb, ?_⟩
  simp [create_bar_chart, hb, List.count_replicate]

theorem c8_bar_chart_zero_guard_witness :
    ((0 : Nat) = 0 ∨ (7 : Nat) = 0) ∧
    (barLength 0 7 = 0 ∧ (create_bar_chart 0 7).count '█' = 0) :=
  ⟨Or.inl rfl, c8_bar_chart_zero_guard 0 7 (Or.inl rfl)⟩

/-- C9: whenever `count ≤ max_count` the rendered bar is exactly 20 cells. -/
theorem c9_bar_chart_fixed_width (count maxCount : Nat)
    (h : count ≤ maxCount) :
    (create_bar_chart count maxCount).length = 20 := by
  have hb : barLength count maxCount ≤ 20 := by
    unfold barLength
    split
    · next hpos =>
      have : count * 20 ≤ maxCount * 20 := Nat.mul_le_mul_right 20 h
      calc count * 20 / maxCount ≤ maxCount * 20 / maxCount :=
            Nat.div_le_div_right this
        _ = 20 := by
            rw [Nat.mul_div_cancel_left 20 hpos]
    · exact Nat.zero_le _
  simp [create_bar_chart]
  omega

theorem c9_bar_chart_fixed_width_witness :
    (13 : Nat) ≤ 40 ∧ (create_bar_chart 13 40).length = 20 :=
  ⟨by omega, c9_bar_chart_fixed_width 13 40 (by omega)⟩

/-! ## `re.search(r'\s+at\s+(.+)$', problem_id)` (src/format_report.py lines 79-81, 113-115) -/

/-- Match `(.+)$` against `u`: at least one non-newline character, with `$`
also matching just before a single trailing newline. -/
def dotPlusEnd (u : Str) : Option Str :=
  let u' := if u.getLast? = some '\n' then u.dropLast else u
  if u' ≠ [] ∧ '\n' ∉ u' then some u' else none

/-- Greedy-with-backtracking match of `\s+(.+)$` when the maximal leading
whitespace run of `rest` has length `k+…`: try consuming `k` whitespace
characters first, then fewer. -/
def tryWsSplit (rest : Str) : Nat → Option Str
  | 0 => none
  | k + 1 =>
    match dotPlusEnd (rest.drop (k + 1)) with
    | some v => some v
    | none => tryWsSplit rest k

/-- Match `\s+(.+)$` at the start of `rest` (the part after `at`). -/
def afterAt (rest : Str) : Option Str :=
  let m := rest.takeWhile wsB
  if m = [] then none else tryWsSplit rest m.length

/-- Try to match `\s+at\s+(.+)$` starting exactly at the head of `s`. -/
def matchAtHere (s : Str) : Option Str :=
  if s.takeWhile wsB = [] then none
  else
    match s.dropWhile wsB with
    | 'a' :: 't' :: rest => afterAt rest
    | _ => none

/-- `re.search(r'\s+at\s+(.+)$', s)`: leftmost match, returning group 1. -/
def searchAtOp : Str → Option Str
  | [] => none
  | c :: cs =>
    match matchAtHere (c :: cs) with
    | some v => some v
    | none => searchAtOp cs

/-! ## Issue line construction (src/format_report.py lines 69-101) -/

/-- One exception-group record, with the values read out of the insights
JSON (`Count`, `type` defaulting to `"Unknown"`, `operation_Name`,
`SampleMessage`, `problemId`, all defaulted to `0`/`""` when missing). -/
structure IssueRec where
  Count : Nat
  type : Str
  operation_Name : Str
  SampleMessage : Str
  problemId : Str
deriving DecidableEq, Repr

/-- `if not operation and problem_id: … operation = match.group(1)`. -/
def issueOperation (operation problemId : Str) : Str :=
  if operation = [] ∧ problemId ≠ [] then
    match searchAtOp problemId with
    | some o => o
    | none => operation
  else operation

/-- `re.sub(r'^' + re.escape(error_type) + r':\s*', '', message)`. -/
def stripTypePrefix (errorType message : Str) : Str :=
  if (errorType ++ [':']) <+: message then
    (message.drop (errorType.length + 1)).dropWhile wsB
  else message

/-- `re.sub(r'^\d{4}-\d{2}-\d{2}T\d{2}:\d{2}:\d{2}\.\d{3}Z\s*', '', message)`. -/
def stripIsoPrefix (message : Str) : Str :=
  match message with
  | d1 :: d2 :: d3 :: d4 :: '-' :: m1 :: m2 :: '-' :: a1 :: a2 :: 'T' ::
      h1 :: h2 :: ':' :: n1 :: n2 :: ':' :: s1 :: s2 :: '.' :: f1 :: f2 :: f3 :: 'Z' :: rest =>
    if [d1, d2, d3, d4, m1, m2, a1, a2, h1, h2, n1, n2, s1, s2, f1, f2, f3].all Char.isDigit
    then rest.dropWhile wsB
    else message
  | _ => message

/-- `if len(message) > 120: message = message[:117] + '...'`. -/
def truncate120 (message : Str) : Str :=
  if message.length > 120 then message.take 117 ++ ['.', '.', '.'] else message

def cleanMessage (errorType message : Str) : Str :=
  truncate120 (stripIsoPrefix (stripTypePrefix errorType message))

/-- The `description` built for one issue line. -/
def issueDesc (r : IssueRec) : Str :=
  if issueOperation r.operation_Name r.problemId ≠ [] then
    r.type ++ (' ' :: 'a' :: 't' :: ' ' :: issueOperation r.operation_Name r.problemId) ++
      (' ' :: '-' :: ' ' :: cleanMessage r.type r.SampleMessage)
  else
    r.type ++ (' ' :: '-' :: ' ' :: cleanMessage r.type r.SampleMessage)

lemma matchAtHere_nonws {p : Char} (t : Str) (hp : wsB p = false) :
    matchAtHere (p :: t) = none := by
  simp [matchAtHere, List.takeWhile_cons, hp]

lemma searchAtOp_append (pre s : Str) (h : ∀ x ∈ pre, wsB x = false) :
    searchAtOp (pre ++ s) = searchAtOp s := by
  induction pre with
  | nil => rfl
  | cons p ps ih =>
    rw [List.cons_append]
    show (match matchAtHere (p :: (ps ++ s)) with
          | some v => some v
          | none => searchAtOp (ps ++ s)) = searchAtOp s
    rw [matchAtHere_nonws _ (h p (List.mem_cons_self p ps))]
    exact ih fun x hx => h x (List.mem_cons_of_mem _ hx)

lemma getLast?_mem_of_eq {α : Type} {l : List α} {a : α} (h : l.getLast? = some a) : a ∈ l := by
  obtain ⟨hne, heq⟩ := List.mem_getLast?_eq_getLast (Option.mem_def.mpr h)
  rw [heq]
  exact List.getLast_mem hne

lemma dotPlusEnd_no_newline {c : Char} {rest : Str} (hnl : '\n' ∉ c :: rest) :
    dotPlusEnd (c :: rest) = some (c :: rest) := by
  have hlast : ¬ (c :: rest).getLast? = some '\n' := fun hEq => hnl (getLast?_mem_of_eq hEq)
  unfold dotPlusEnd
  simp only [if_neg hlast]
  exact if_pos ⟨List.cons_ne_nil c rest, hnl⟩

lemma matchAtHere_at_sep (c : Char) (rest : Str) (hc : wsB c = false)
    (hnl : '\n' ∉ c :: rest) :
    matchAtHere (' ' :: 'a' :: 't' :: ' ' :: c :: rest) = some (c :: rest) := by
  have hsp : wsB ' ' = true := rfl
  have ha : wsB 'a' = false := rfl
  have htw : List.takeWhile wsB (' ' :: 'a' :: 't' :: ' ' :: c :: rest) = [' '] := by
    rw [List.takeWhile_cons, if_pos hsp, List.takeWhile_cons, if_neg (by simp [ha])]
  have hdw : List.dropWhile wsB (' ' :: 'a' :: 't' :: ' ' :: c :: rest)
      = 'a' :: 't' :: ' ' :: c :: rest := by
    rw [List.dropWhile_cons, if_pos hsp, List.dropWhile_cons, if_neg (by simp [ha])]
  have htw2 : List.takeWhile wsB (' ' :: c :: rest) = [' '] := by
    rw [List.takeWhile_cons, if_pos hsp, List.takeWhile_cons, if_neg (by simp [hc])]
  unfold matchAtHere
  rw [htw, if_neg (by simp), hdw]
  show afterAt (' ' :: c :: rest) = some (c :: rest)
  unfold afterAt
  rw [htw2]
  rw [if_neg (by simp)]
  show tryWsSplit (' ' :: c :: rest) 1 = some (c :: rest)
  unfold tryWsSplit
  rw [show (' ' :: c :: rest).drop 1 = c :: rest from rfl, dotPlusEnd_no_newline hnl]

/-- C5: issue-line operation recovery. When `operation_Name` is empty and
`problemId` has the form `<pre> at <text>` (with `pre` whitespace-free and
`<text>` starting with a non-whitespace, newline-free character), the
operation used in the issue line is that trailing text; when the regex
finds no `at` clause, the `at <Operation>` clause is omitted. -/
theorem c5_operation_recovery :
    (∀ (r : IssueRec) (pre : Str) (c : Char) (rest : Str),
      r.operation_Name = [] →
      r.problemId = pre ++ ' ' :: 'a' :: 't' :: ' ' :: c :: rest →
      (∀ x ∈ pre, wsB x = false) →
      wsB c = false →
      '\n' ∉ c :: rest →
      issueOperation r.operation_Name r.problemId = c :: rest ∧
      issueDesc r = r.type ++ (' ' :: 'a' :: 't' :: ' ' :: (c :: rest)) ++
        (' ' :: '-' :: ' ' :: cleanMessage r.type r.SampleMessage)) ∧
    (∀ r : IssueRec, r.operation_Name = [] → searchAtOp r.problemId = none →
      issueDesc r = r.type ++ (' ' :: '-' :: ' ' :: cleanMessage r.type r.SampleMessage)) := by
  constructor
  · intro r pre c rest hop hpid hpre hc hnl
    have hsearch : searchAtOp r.problemId = some (c :: rest) := by
      rw [hpid, searchAtOp_append pre _ hpre]
      show (match matchAtHere (' ' :: 'a' :: 't' :: ' ' :: c :: rest) with
            | some v => some v
            | none => searchAtOp ('a' :: 't' :: ' ' :: c :: rest)) = some (c :: rest)
      rw [matchAtHere_at_sep c rest hc hnl]
    have hopv : issueOperation r.operation_Name r.problemId = c :: rest := by
      unfold issueOperation
      rw [if_pos ⟨hop, by rw [hpid]; simp⟩, hsearch]
    refine ⟨hopv, ?_⟩
    unfold issueDesc
    rw [hopv]
    simp
  · intro r hop hsearch
    have hopv : issueOperation r.operation_Name r.problemId = [] := by
      unfold issueOperation
      by_cases hpid : r.problemId = []
      · rw [if_neg (by simp [hpid])]
        exact hop
      · rw [if_pos ⟨hop, hpid⟩, hsearch]
        try exact hop
    unfold issueDesc
    rw [hopv]
    simp

theorem c5_operation_recovery_witness :
    (issueOperation [] ("TypeError at BasketAdQueue.handleLineItemEvents".data)
        = "BasketAdQueue.handleLineItemEvents".data ∧
      issueDesc ⟨2190, "TypeError".data, [],
          "TypeError: 2026-02-06T13:47:48.773Z Cannot read properties".data,
          "TypeError at BasketAdQueue.handleLineItemEvents".data⟩ =
        ("TypeError at BasketAdQueue.handleLineItemEvents - Cannot read properties".data)) ∧
    issueDesc ⟨5, "ValueError".data, [], "boom".data, "NoSeparator".data⟩ =
      "ValueError - boom".data := by
  constructor
  · have h := c5_operation_recovery.1
      ⟨2190, "TypeError".data, [],
        "TypeError: 2026-02-06T13:47:48.773Z Cannot read properties".data,
        "TypeError at BasketAdQueue.handleLineItemEvents".data⟩
      "TypeError".data 'B' "asketAdQueue.handleLineItemEvents".data
      rfl (by decide) (by decide) (by decide) (by decide)
    exact ⟨h.1, by rw [h.2]; decide⟩
  · exact c5_operation_recovery.2 ⟨5, "ValueError".data, [], "boom".data, "NoSeparator".data⟩
      rfl (by decide)

/-! ## `parse_report` (src/post_to_slack.py lines 157-226) -/

/-- Python `sub in s` (substring containment). -/
def containsB (pat s : Str) : Bool := decide (pat <:+: s)

/-- Case-insensitive literal prefix match (`re` with `IGNORECASE`). -/
def icasePrefix (pat s : Str) : Bool := decide (lowerS pat <+: lowerS s)

/-- The business-metrics line test:
`"business" in line.lower() and "metric" in line.lower()`. -/
def bizCond (l : Str) : Bool :=
  containsB "business".data (lowerS l) && containsB "metric".data (lowerS l)

/-- The technical-metrics keyword test:
`"exception" in line.lower() or "request" in line.lower() or
 "dependencies" in line.lower() or "P95" in line or "p95" in line.lower()`. -/
def metKwCond (l : Str) : Bool :=
  containsB "exception".data (lowerS l) || containsB "request".data (lowerS l) ||
    containsB "dependencies".data (lowerS l) || containsB "P95".data l ||
    containsB "p95".data (lowerS l)

/-- Length matched by `\s*\(if available\):?` (IGNORECASE) at the head of
`s`, or 0 when it does not match there. -/
def ifAvailLen (s : Str) : Nat :=
  let w := (s.takeWhile wsB).length
  let r := s.drop w
  if icasePrefix "(if available):".data r then w + 15
  else if icasePrefix "(if available)".data r then w + 14
  else 0

/-- `re.sub(r'\s*\(if available\):?', '', s, flags=re.IGNORECASE)`,
with structural fuel (one unit per input character). -/
def subIfAvailF : Nat → Str → Str
  | 0, s => s
  | _ + 1, [] => []
  | f + 1, c :: cs =>
    let L := ifAvailLen (c :: cs)
    if 0 < L then subIfAvailF f ((c :: cs).drop L) else c :: subIfAvailF f cs

def subIfAvail (s : Str) : Str := subIfAvailF s.length s

/-- Cleaning of a matched business-metrics line. -/
def bizClean (l : Str) : Str :=
  subIfAvail (pstrip (replaceAll "Business Metrics:".data []
    (replaceAll "**Business Metrics**:".data [] l)))

/-- Cleaning of a matched technical-metrics line. -/
def metClean (l : Str) : Str :=
  pstrip (replaceAll "Metrics:".data []
    (replaceAll "**Metrics:**".data [] (replaceAll "**Metrics**:".data [] l)))

/-- One step of the metrics / business-metrics line scan
(src/post_to_slack.py lines 172-186); state is `(metrics, business)`. -/
def metricsStep (st : Str × Str) (l : Str) : Str × Str :=
  if bizCond l && hasDigit l then (st.1, bizClean l)
  else if st.1.isEmpty && metKwCond l && hasDigit l then (metClean l, st.2)
  else st

def scanMetrics (lines : List Str) : Str × Str := lines.foldl metricsStep ([], [])

/-- Status glyph extraction from the first line (lines 161-167). -/
def parseStatus (lines : List Str) : Str :=
  let sl := lines.headD []
  if containsB ['🔴'] sl then ['🔴']
  else if containsB ['✅'] sl || containsB ['🟢'] sl then ['✅']
  else ['🟡']

/-- `\s*[-–]?\s*(.+)` with greedy backtracking (the tail of the three
numbered-issue patterns); input lines never contain `'\n'`. -/
def descTail (t : Str) : Option Str :=
  if t = [] then none
  else
    match t.drop (t.takeWhile wsB).length with
    | [] => (match t.getLast? with | some c2 => some [c2] | none => none)
    | c :: u' =>
      if c = '-' ∨ c = '–' then
        match u'.drop (u'.takeWhile wsB).length with
        | [] => (match u'.getLast? with | some c2 => some [c2] | none => some [c])
        | h :: t' => some (h :: t')
      else some (c :: u')

/-- `\s*[-–]\s*(.+)` (dash required, as in the second pattern). -/
def dashTail (t : Str) : Option Str :=
  match t.drop (t.takeWhile wsB).length with
  | [] => none
  | c :: u' =>
    if c = '-' ∨ c = '–' then
      match u'.drop (u'.takeWhile wsB).length with
      | [] => (match u'.getLast? with | some c2 => some [c2] | none => none)
      | h :: t' => some (h :: t')
    else none

/-- `re.search(r'^(\d+)\.\s*\*\*([0-9,]+)×?\*\*\s*[-–]?\s*(.+)', s)`,
returning `(group 2, group 3)`. -/
def match1 (s : Str) : Option (Str × Str) :=
  let ds := s.takeWhile Char.isDigit
  if ds = [] then none else
  match s.drop ds.length with
  | '.' :: r1 =>
    (match r1.dropWhile wsB with
     | '*' :: '*' :: r3 =>
       let num := r3.takeWhile numChar
       if num = [] then none else
       (match r3.drop num.length with
        | '×' :: '*' :: '*' :: r5 => (descTail r5).map (fun d => (num, d))
        | '*' :: '*' :: r5 => (descTail r5).map (fun d => (num, d))
        | _ => none)
     | _ => none)
  | _ => none

/-- `re.search(r'^(\d+)\.\s*\*\*([0-9,]+)\*\*\s*[-–]\s*(.+)', s)`. -/
def match2 (s : Str) : Option (Str × Str) :=
  let ds := s.takeWhile Char.isDigit
  if ds = [] then none else
  match s.drop ds.length with
  | '.' :: r1 =>
    (match r1.dropWhile wsB with
     | '*' :: '*' :: r3 =>
       let num := r3.takeWhile numChar
       if num = [] then none else
       (match r3.drop num.length with
        | '*' :: '*' :: r5 => (dashTail r5).map (fun d => (num, d))
        | _ => none)
     | _ => none)
  | _ => none

/-- The group-2 backtracking loop of the third pattern: try a `[0-9,]+`
match of length `k`, longest first, each time trying the optional `×`
greedily. -/
def match3Num (r2 : Str) : Nat → Option (Str × Str)
  | 0 => none
  | k + 1 =>
    let num := r2.take (k + 1)
    let rest := r2.drop (k + 1)
    match rest with
    | '×' :: r4 =>
      (match descTail r4 with
       | some d => some (num, d)
       | none =>
         match descTail rest with
         | some d => some (num, d)
         | none => match3Num r2 k)
    | _ =>
      (match descTail rest with
       | some d => some (num, d)
       | none => match3Num r2 k)

/-- `re.search(r'^(\d+)\.\s*([0-9,]+)×?\s*[-–]?\s*(.+)', s)`. -/
def match3 (s : Str) : Option (Str × Str) :=
  let ds := s.takeWhile Char.isDigit
  if ds = [] then none else
  match s.drop ds.length with
  | '.' :: r1 =>
    let r2 := r1.dropWhile wsB
    match3Num r2 (r2.takeWhile numChar).length
  | _ => none

/-- `match = match1 or match2 or match3` (lines 199-207). -/
def tryMatches (s : Str) : Option (Str × Str) :=
  match match1 s with
  | some r => some r
  | none =>
    match match2 s with
    | some r => some r
    | none => match3 s

def headerKws : List Str :=
  ["top issues".data, "top problems".data, "top 5".data, "problems:".data, "issues:".data]

def headerCond (l : Str) : Bool := headerKws.any (fun kw => containsB kw (lowerS l))

def startsRank (l : Str) : Bool :=
  "123456789".data.any (fun d => decide ([d, '.'] <+: l))

/-- The issue-section scan (src/post_to_slack.py lines 189-216). -/
def issuesScan : List Str → Bool → List (Nat × Str) → List (Nat × Str)
  | [], _, acc => acc
  | l :: ls, inIss, acc =>
    if headerCond l then issuesScan ls true acc
    else if inIss then
      match tryMatches (pstrip l) with
      | some (num, d) =>
        issuesScan ls inIss (acc ++ [(digitsToNat (stripCommas num), pstrip d)])
      | none =>
        if pstrip l ≠ [] ∧ startsRank (pstrip l) = false then
          (if acc ≠ [] then acc else issuesScan ls inIss acc)
        else issuesScan ls inIss acc
    else issuesScan ls inIss acc

def parseIssues (lines : List Str) : List (Nat × Str) := issuesScan lines false []

/-- Length matched at the head of `s` by one alternative of
`\*\*Action Required:?\*\*|Action Required:?|🚨` (IGNORECASE), or 0. -/
def actionTokLen (s : Str) : Nat :=
  if icasePrefix "**action required:**".data s then 20
  else if icasePrefix "**action required**".data s then 19
  else if icasePrefix "action required:".data s then 16
  else if icasePrefix "action required".data s then 15
  else if s.head? = some '🚨' then 1
  else 0

/-- `re.sub(r'\*\*Action Required:?\*\*|Action Required:?|🚨', '', s, flags=re.IGNORECASE)`,
with structural fuel (one unit per input character). -/
def subActionF : Nat → Str → Str
  | 0, s => s
  | _ + 1, [] => []
  | f + 1, c :: cs =>
    let L := actionTokLen (c :: cs)
    if 0 < L then subActionF f ((c :: cs).drop L) else c :: subActionF f cs

def subAction (s : Str) : Str := subActionF s.length s

/-- The action-line scan (src/post_to_slack.py lines 219-224). -/
def scanAction : List Str → Str
  | [] => []
  | l :: ls =>
    if containsB "action required".data (lowerS l) || containsB ['🚨'] l then
      let a := pstrip (subAction l)
      if a ≠ [] then a else scanAction ls
    else scanAction ls

/-- The structured result of `parse_report`
(`status_emoji, metrics, business_metrics, issues, action`). -/
structure ParsedReport where
  status : Str
  metrics : Str
  business : Str
  issues : List (Nat × Str)
  action : Str
deriving DecidableEq, Repr

def parse_report (report : Str) : ParsedReport :=
  let lines := splitNL (pstrip report)
  { status := parseStatus lines
    metrics := (scanMetrics lines).1
    business := (scanMetrics lines).2
    issues := parseIssues lines
    action := scanAction lines }

/-! ## Facts about characters, digits and the cleanup helpers -/

lemma isDigit_toNat {c : Char} (h : c.isDigit = true) :
    48 ≤ c.toNat ∧ c.toNat ≤ 57 := by
  simp [Char.isDigit] at h
  exact ⟨h.1, h.2⟩

lemma digit_not_ws {c : Char} (h : c.isDigit = true) : wsB c = false := by
  obtain ⟨h1, h2⟩ := isDigit_toNat h
  have hne : ∀ x : Char, x.toNat < 48 → c ≠ x := by
    intro x hx heq
    subst heq
    omega
  simp only [wsB, Bool.or_eq_false_iff, beq_eq_false_iff_ne, ne_eq]
  exact ⟨⟨⟨⟨⟨hne ' ' (by decide), hne '\t' (by decide)⟩, hne '\n' (by decide)⟩,
    hne '\r' (by decide)⟩, hne '\x0b' (by decide)⟩, hne '\x0c' (by decide)⟩

lemma ws_not_digit {c : Char} (h : wsB c = true) : c.isDigit = false := by
  by_contra hd
  rw [Bool.not_eq_false] at hd
  rw [digit_not_ws hd] at h
  exact Bool.false_ne_true h

lemma lowerC_digit {c : Char} (h : c.isDigit = true) : lowerC c = c := by
  obtain ⟨_, h2⟩ := isDigit_toNat h
  unfold lowerC
  rw [if_neg]
  intro ⟨hA, _⟩
  rw [Char.le_def] at hA
  have h65 : (65 : Nat) ≤ c.toNat := hA
  omega

lemma mem_dropWhile_of_neg {p : Char → Bool} {a : Char} {l : Str}
    (ha : p a = false) (h : a ∈ l) : a ∈ l.dropWhile p := by
  induction l with
  | nil => exact absurd h (List.not_mem_nil a)
  | cons c cs ih =>
    rw [List.dropWhile_cons]
    by_cases hpc : p c = true
    · rw [if_pos hpc]
      rcases List.mem_cons.mp h with rfl | hmem
      · rw [ha] at hpc; exact absurd hpc (by simp)
      · exact ih hmem
    · rw [if_neg hpc]
      exact h

lemma mem_pstrip {a : Char} {l : Str} (ha : wsB a = false) (h : a ∈ l) :
    a ∈ pstrip l := by
  unfold pstrip
  rw [List.mem_reverse]
  apply mem_dropWhile_of_neg ha
  rw [List.mem_reverse]
  exact mem_dropWhile_of_neg ha h

lemma hasDigit_iff {s : Str} : hasDigit s = true ↔ ∃ c ∈ s, c.isDigit = true := by
  simp [hasDigit, List.any_eq_true]

lemma hasDigit_pstrip {s : Str} (h : hasDigit s = true) : hasDigit (pstrip s) = true := by
  obtain ⟨c, hmem, hd⟩ := hasDigit_iff.mp h
  exact hasDigit_iff.mpr ⟨c, mem_pstrip (digit_not_ws hd) hmem, hd⟩

lemma hasDigit_append {a b : Str} :
    hasDigit (a ++ b) = (hasDigit a || hasDigit b) := by
  simp [hasDigit, List.any_append]

lemma hasDigit_replaceAllF {pat : Str} (hpat : ∀ c ∈ pat, c.isDigit = false) :
    ∀ (f : Nat) (s : Str), hasDigit s = true → hasDigit (replaceAllF pat [] f s) = true := by
  intro f
  induction f with
  | zero => intro s h; exact h
  | succ f ih =>
    intro s h
    match s with
    | [] => exact h
    | c :: cs =>
      rw [replaceAllF]
      split
      · next hpre =>
        obtain ⟨t, ht⟩ := hpre.2
        have hdrop : (c :: cs).drop pat.length = t := by
          rw [← ht, List.drop_left]
        rw [List.nil_append, hdrop]
        apply ih
        rw [← ht, hasDigit_append] at h
        rcases Bool.or_eq_true_iff.mp h with hp | hgood
        · obtain ⟨x, hx, hxd⟩ := hasDigit_iff.mp hp
          rw [hpat x hx] at hxd
          exact absurd hxd (by simp)
        · exact hgood
      · rcases hasDigit_iff.mp h with ⟨x, hx, hxd⟩
        rcases List.mem_cons.mp hx with rfl | hmem
        · exact hasDigit_iff.mpr ⟨x, List.mem_cons_self _ _, hxd⟩
        · have : hasDigit (replaceAllF pat [] f cs) = true :=
            ih cs (hasDigit_iff.mpr ⟨x, hmem, hxd⟩)
          obtain ⟨y, hy, hyd⟩ := hasDigit_iff.mp this
          exact hasDigit_iff.mpr ⟨y, List.mem_cons_of_mem _ hy, hyd⟩

lemma hasDigit_replaceAll {pat s : Str} (hpat : ∀ c ∈ pat, c.isDigit = false)
    (h : hasDigit s = true) : hasDigit (replaceAll pat [] s) = true :=
  hasDigit_replaceAllF hpat s.length s h

lemma hasDigit_ne_nil {s : Str} (h : hasDigit s = true) : s ≠ [] := by
  intro he
  subst he
  simp [hasDigit] at h

lemma lowerS_take (s : Str) (n : Nat) : lowerS (s.take n) = (lowerS s).take n := by
  simp [lowerS, List.map_take]

lemma icasePrefix_nondigit {pat r : Str} (hp : icasePrefix pat r = true)
    (hpat : ∀ y ∈ lowerS pat, y.isDigit = false) :
    ∀ x ∈ r.take pat.length, x.isDigit = false := by
  intro x hx
  by_contra hxd
  rw [Bool.not_eq_false] at hxd
  have hpre : lowerS pat <+: lowerS r := of_decide_eq_true hp
  have hlen : (lowerS pat).length = pat.length := by simp [lowerS]
  have htake : (lowerS r).take pat.length = lowerS pat := by
    have h0 := List.prefix_iff_eq_take.mp hpre
    rw [← hlen, ← h0]
  have hmem : lowerC x ∈ lowerS pat := by
    rw [← htake, ← lowerS_take]
    exact List.mem_map_of_mem lowerC hx
  rw [lowerC_digit hxd] at hmem
  rw [hpat x hmem] at hxd
  exact Bool.false_ne_true hxd

lemma ifAvail_take_nondigit (s : Str) :
    ∀ x ∈ s.take (ifAvailLen s), x.isDigit = false := by
  intro x hx
  have hsplit : s = s.takeWhile wsB ++ s.dropWhile wsB :=
    (List.takeWhile_append_dropWhile (p := wsB) (l := s)).symm
  have hdropeq : s.drop (s.takeWhile wsB).length = s.dropWhile wsB := by
    nth_rewrite 2 [hsplit]
    exact List.drop_left _ _
  unfold ifAvailLen at hx
  simp only [hdropeq] at hx
  by_cases h1 : icasePrefix "(if available):".data (s.dropWhile wsB) = true
  · rw [if_pos h1] at hx
    have : s.take ((s.takeWhile wsB).length + 15)
        = s.takeWhile wsB ++ (s.dropWhile wsB).take 15 := by
      nth_rewrite 2 [hsplit]
      exact List.take_append 15
    rw [this] at hx
    rcases List.mem_append.mp hx with hxa | hxb
    · exact ws_not_digit (List.mem_takeWhile_imp hxa)
    · exact icasePrefix_nondigit h1 (by decide) x hxb
  · rw [if_neg h1] at hx
    by_cases h2 : icasePrefix "(if available)".data (s.dropWhile wsB) = true
    · rw [if_pos h2] at hx
      have : s.take ((s.takeWhile wsB).length + 14)
          = s.takeWhile wsB ++ (s.dropWhile wsB).take 14 := by
        nth_rewrite 2 [hsplit]
        exact List.take_append 14
      rw [this] at hx
      rcases List.mem_append.mp hx with hxa | hxb
      · exact ws_not_digit (List.mem_takeWhile_imp hxa)
      · exact icasePrefix_nondigit h2 (by decide) x hxb
    · rw [if_neg h2] at hx
      simp at hx

lemma hasDigit_subIfAvailF :
    ∀ (f : Nat) (s : Str), hasDigit s = true → hasDigit (subIfAvailF f s) = true := by
  intro f
  induction f with
  | zero => intro s h; exact h
  | succ f ih =>
    intro s h
    match s with
    | [] => exact h
    | c :: cs =>
      rw [subIfAvailF]
      split
      · next hL =>
        apply ih
        have hsplit : c :: cs
            = (c :: cs).take (ifAvailLen (c :: cs)) ++ (c :: cs).drop (ifAvailLen (c :: cs)) :=
          (List.take_append_drop _ _).symm
        rw [hsplit, hasDigit_append] at h
        rcases Bool.or_eq_true_iff.mp h with hp | hgood
        · obtain ⟨x, hx, hxd⟩ := hasDigit_iff.mp hp
          rw [ifAvail_take_nondigit _ x hx] at hxd
          exact absurd hxd (by simp)
        · exact hgood
      · rcases hasDigit_iff.mp h with ⟨x, hx, hxd⟩
        rcases List.mem_cons.mp hx with rfl | hmem
        · exact hasDigit_iff.mpr ⟨x, List.mem_cons_self _ _, hxd⟩
        · obtain ⟨y, hy, hyd⟩ := hasDigit_iff.mp (ih cs (hasDigit_iff.mpr ⟨x, hmem, hxd⟩))
          exact hasDigit_iff.mpr ⟨y, List.mem_cons_of_mem _ hy, hyd⟩

lemma hasDigit_subIfAvail {s : Str} (h : hasDigit s = true) :
    hasDigit (subIfAvail s) = true :=
  hasDigit_subIfAvailF s.length s h

lemma metClean_ne_nil {l : Str} (h : hasDigit l = true) : metClean l ≠ [] := by
  unfold metClean
  exact hasDigit_ne_nil (hasDigit_pstrip
    (hasDigit_replaceAll (by decide)
      (hasDigit_replaceAll (by decide) (hasDigit_replaceAll (by decide) h))))

lemma bizClean_ne_nil {l : Str} (h : hasDigit l = true) : bizClean l ≠ [] := by
  unfold bizClean
  exact hasDigit_ne_nil (hasDigit_subIfAvail (hasDigit_pstrip
    (hasDigit_replaceAll (by decide) (hasDigit_replaceAll (by decide) h))))

/-! ## Characterisation of the metrics / business-metrics scan -/

/-- A line taken by the business-metrics branch. -/
def bizQ (l : Str) : Bool := bizCond l && hasDigit l

/-- A line effectively taken as the technical-metrics line: it passes the
keyword and digit tests and is not claimed first by the business branch. -/
def techEff (l : Str) : Bool := !bizQ l && (metKwCond l && hasDigit l)

lemma metricsStep_biz {m b l} (hbq : bizQ l = true) :
    metricsStep (m, b) l = (m, bizClean l) := by
  unfold metricsStep
  rw [if_pos (show (bizCond l && hasDigit l) = true from hbq)]

lemma metricsStep_assign {m b l} (hbq : bizQ l = false) (hm : m = [])
    (hmk : (metKwCond l && hasDigit l) = true) :
    metricsStep (m, b) l = (metClean l, b) := by
  unfold metricsStep
  rw [if_neg (by rw [show (bizCond l && hasDigit l) = bizQ l from rfl, hbq]; simp)]
  rw [if_pos]
  subst hm
  simp only [List.isEmpty_nil, Bool.true_and]
  exact hmk

lemma metricsStep_skip {m b l} (hbq : bizQ l = false)
    (hcond : m ≠ [] ∨ (metKwCond l && hasDigit l) = false) :
    metricsStep (m, b) l = (m, b) := by
  unfold metricsStep
  rw [if_neg (by rw [show (bizCond l && hasDigit l) = bizQ l from rfl, hbq]; simp)]
  rw [if_neg]
  intro hcon
  rcases hcond with hm | hmk
  · have h1 := (Bool.and_eq_true_iff.mp (Bool.and_eq_true_iff.mp hcon).1).1
    exact hm (List.isEmpty_iff.mp h1)
  · have h2 : (metKwCond l && hasDigit l) = true := by
      have ha := Bool.and_eq_true_iff.mp hcon
      exact Bool.and_eq_true_iff.mpr ⟨(Bool.and_eq_true_iff.mp ha.1).2, ha.2⟩
    rw [hmk] at h2
    exact Bool.false_ne_true h2

lemma scanMetrics_fst : ∀ (ls : List Str) (m b : Str),
    (List.foldl metricsStep (m, b) ls).1 =
      if m = [] then
        (match ls.find? techEff with
         | some l => metClean l
         | none => [])
      else m := by
  intro ls
  induction ls with
  | nil =>
    intro m b
    by_cases hm : m = [] <;> simp [hm]
  | cons l ls ih =>
    intro m b
    rw [List.foldl_cons]
    by_cases hbq : bizQ l = true
    · have hte : techEff l = false := by simp [techEff, hbq]
      rw [metricsStep_biz hbq, ih, List.find?_cons_of_neg _ (by simp [hte])]
    · rw [Bool.not_eq_true] at hbq
      by_cases hm : m = []
      · by_cases hmk : (metKwCond l && hasDigit l) = true
        · have hte : techEff l = true := by simp [techEff, hbq, hmk]
          rw [metricsStep_assign hbq hm hmk, ih,
            if_neg (metClean_ne_nil (Bool.and_eq_true_iff.mp hmk).2),
            if_pos hm, List.find?_cons_of_pos _ hte]
        · have hX : (metKwCond l && hasDigit l) = false := by
            simpa using hmk
          have hte : techEff l = false := by
            simp [techEff, hX]
          rw [metricsStep_skip hbq (Or.inr (by simpa using hmk)), ih,
            if_pos hm, if_pos hm, List.find?_cons_of_neg _ (by simp [hte])]
      · rw [metricsStep_skip hbq (Or.inl hm), ih, if_neg hm, if_neg hm]

lemma metricsStep_snd_of_not_biz {m b l} (hbq : bizQ l = false) :
    (metricsStep (m, b) l).2 = b := by
  unfold metricsStep
  rw [if_neg (by rw [show (bizCond l && hasDigit l) = bizQ l from rfl, hbq]; simp)]
  split <;> rfl

lemma scanMetrics_snd : ∀ (ls : List Str) (m b : Str),
    (List.foldl metricsStep (m, b) ls).2 =
      match (ls.filter bizQ).getLast? with
      | some l => bizClean l
      | none => b := by
  intro ls
  induction ls with
  | nil => intro m b; rfl
  | cons l ls ih =>
    intro m b
    rw [List.foldl_cons]
    by_cases hbq : bizQ l = true
    · rw [metricsStep_biz hbq, ih, List.filter_cons_of_pos hbq]
      cases hfl : (ls.filter bizQ) with
      | nil => rfl
      | cons h t =>
        obtain ⟨x, hx⟩ : ∃ x, (h :: t).getLast? = some x :=
          ⟨(h :: t).getLast (List.cons_ne_nil h t),
            List.getLast?_eq_getLast_of_ne_nil (List.cons_ne_nil h t)⟩
        rw [List.getLast?_cons_cons, hx]
    · rw [Bool.not_eq_true] at hbq
      have hsnd : metricsStep (m, b) l = ((metricsStep (m, b) l).1, b) := by
        have := metricsStep_snd_of_not_biz (m := m) (b := b) hbq
        exact Prod.ext rfl this
      rw [hsnd, ih, List.filter_cons_of_neg (by simp [hbq])]

lemma find?_eq_of_first {α : Type} {p : α → Bool} :
    ∀ {ls : List α} {i : Nat} {x : α},
    ls.get? i = some x → p x = true →
    (∀ k y, k < i → ls.get? k = some y → p y = false) →
    ls.find? p = some x := by
  intro ls
  induction ls with
  | nil => intro i x h; simp at h
  | cons a as ih =>
    intro i x hget hpx hbefore
    cases i with
    | zero =>
      rw [List.get?_cons_zero, Option.some_inj] at hget
      subst hget
      exact List.find?_cons_of_pos _ hpx
    | succ i =>
      have hpa : p a = false := hbefore 0 a (Nat.succ_pos i) rfl
      rw [List.find?_cons_of_neg _ (by simp [hpa])]
      exact ih hget hpx (fun k y hk hgy => hbefore (k + 1) y (by omega) hgy)

lemma filter_getLast?_of_last {α : Type} {p : α → Bool} :
    ∀ {ls : List α} {j : Nat} {x : α},
    ls.get? j = some x → p x = true →
    (∀ k y, j < k → ls.get? k = some y → p y = false) →
    (ls.filter p).getLast? = some x := by
  intro ls
  induction ls with
  | nil => intro j x h; simp at h
  | cons a as ih =>
    intro j x hget hpx hafter
    cases j with
    | zero =>
      rw [List.get?_cons_zero, Option.some_inj] at hget
      subst hget
      have hnil : as.filter p = [] := by
        apply List.filter_eq_nil_iff.mpr
        intro y hy
        obtain ⟨k, hk⟩ := List.mem_iff_get?.mp hy
        simp [hafter (k + 1) y (Nat.succ_pos k) hk]
      rw [List.filter_cons_of_pos hpx, hnil]
      rfl
    | succ j =>
      have htail : (as.filter p).getLast? = some x :=
        ih hget hpx (fun k y hk hgy => hafter (k + 1) y (by omega) hgy)
      by_cases hpa : p a = true
      · rw [List.filter_cons_of_pos hpa]
        cases hfl : as.filter p with
        | nil => rw [hfl] at htail; simp at htail
        | cons h t =>
          rw [hfl] at htail
          rw [List.getLast?_cons_cons, htail]
      · rw [List.filter_cons_of_neg (by simpa using hpa)]
        exact htail

/-! ## `post_to_slack` decision logic (src/post_to_slack.py lines 228-261) -/

/-- `if not metrics and not business_metrics and not issues:` (line 250). -/
def parseFailed (p : ParsedReport) : Bool :=
  p.metrics.isEmpty && p.business.isEmpty && p.issues.isEmpty

/-- The plain-text fallback body posted on parse failure (line 259). -/
def fallbackText (report : Str) : Str :=
  "⚠️ LoA Application Insights Report\n\n".data ++ report

/-- The message text posted by the fallback path, when taken. -/
def postFallback (report : Str) : Option Str :=
  if parseFailed (parse_report report) then some (fallbackText report) else none

/-- Exit code of `post_to_slack`: 1 on the parse-failure fallback path,
0 on the structured path (assuming delivery, an external collaborator,
succeeds). -/
def postExitCode (report : Str) : Nat :=
  if parseFailed (parse_report report) then 1 else 0

/-- Whether a status glyph was actually found on the first line (when not,
the status field is merely the `🟡` default). -/
def statusGlyphFound (report : Str) : Bool :=
  containsB ['🔴'] ((splitNL (pstrip report)).headD []) ||
    containsB ['✅'] ((splitNL (pstrip report)).headD []) ||
    containsB ['🟢'] ((splitNL (pstrip report)).headD [])

/-- C6: when no status glyph is found and the parsed metrics, business
metrics and issues are all empty, `post_to_slack` treats the run as a parse
failure, posts the raw report in the plain-text fallback message and
returns exit code 1. -/
theorem c6_parse_failure_fallback (report : Str)
    (hstatus : statusGlyphFound report = false)
    (hm : (parse_report report).metrics = [])
    (hb : (parse_report report).business = [])
    (hi : (parse_report report).issues = []) :
    postFallback report = some (fallbackText report) ∧ postExitCode report = 1 := by
  have hf : parseFailed (parse_report report) = true := by
    simp [parseFailed, hm, hb, hi]
  exact ⟨by simp [postFallback, hf], by simp [postExitCode, hf]⟩

theorem c6_parse_failure_fallback_witness :
    (statusGlyphFound "hello operator".data = false ∧
      (parse_report "hello operator".data).metrics = [] ∧
      (parse_report "hello operator".data).business = [] ∧
      (parse_report "hello operator".data).issues = []) ∧
    (postFallback "hello operator".data =
        some ("⚠️ LoA Application Insights Report\n\nhello operator".data) ∧
      postExitCode "hello operator".data = 1) := by
  refine ⟨by decide, ?_⟩
  have h := c6_parse_failure_fallback "hello operator".data
    (by decide) (by decide) (by decide) (by decide)
  refine ⟨?_, h.2⟩
  rw [h.1]
  decide

/-- C3 (as frozen) is refuted: in this report, line 0 qualifies as the
business-metrics line and line 1 qualifies as the technical-metrics line
per the claim's own wording (keyword + digit tests), the two lines are
separate, yet the parsed metrics field stays empty, because line 1 also
passes the business test and is consumed by that branch first. -/
theorem c3_counterexample :
    (bizCond "business metric 1".data && hasDigit "business metric 1".data) = true ∧
    (metKwCond "business metric exceptions 2".data &&
      hasDigit "business metric exceptions 2".data) = true ∧
    splitNL (pstrip "business metric 1\nbusiness metric exceptions 2".data) =
      ["business metric 1".data, "business metric exceptions 2".data] ∧
    (parse_report "business metric 1\nbusiness metric exceptions 2".data).metrics = [] ∧
    (parse_report "business metric 1\nbusiness metric exceptions 2".data).business ≠ [] := by
  decide

/-- C3 (amended): if some line passes the business-metrics test and some
line passes the technical-metrics test while not also passing the
business-metrics test, then `parse_report` populates both fields,
regardless of the order of the two lines. -/
theorem c3_both_populated (report : Str)
    (hbiz : ∃ l ∈ splitNL (pstrip report), bizQ l = true)
    (htech : ∃ l ∈ splitNL (pstrip report), techEff l = true) :
    (parse_report report).metrics ≠ [] ∧ (parse_report report).business ≠ [] := by
  constructor
  · obtain ⟨l0, hmem, hp⟩ := htech
    have hfind : ((splitNL (pstrip report)).find? techEff).isSome :=
      List.find?_isSome.mpr ⟨l0, hmem, hp⟩
    obtain ⟨lf, hlf⟩ := Option.isSome_iff_exists.mp hfind
    have hplf : techEff lf = true := List.find?_some hlf
    have hd : hasDigit lf = true :=
      (Bool.and_eq_true_iff.mp (Bool.and_eq_true_iff.mp hplf).2).2
    show (List.foldl metricsStep ([], []) (splitNL (pstrip report))).1 ≠ []
    rw [scanMetrics_fst, if_pos rfl, hlf]
    exact metClean_ne_nil hd
  · obtain ⟨l0, hmem, hp⟩ := hbiz
    have hne : (splitNL (pstrip report)).filter bizQ ≠ [] := by
      intro hnil
      have : l0 ∈ (splitNL (pstrip report)).filter bizQ :=
        List.mem_filter.mpr ⟨hmem, hp⟩
      rw [hnil] at this
      exact List.not_mem_nil l0 this
    obtain ⟨x, hx⟩ : ∃ x, ((splitNL (pstrip report)).filter bizQ).getLast? = some x :=
      ⟨_, List.getLast?_eq_getLast_of_ne_nil hne⟩
    have hxmem : x ∈ (splitNL (pstrip report)).filter bizQ := getLast?_mem_of_eq hx
    have hxq : bizQ x = true := (List.mem_filter.mp hxmem).2
    have hxd : hasDigit x = true := (Bool.and_eq_true_iff.mp hxq).2
    show (List.foldl metricsStep ([], []) (splitNL (pstrip report))).2 ≠ []
    rw [scanMetrics_snd, hx]
    exact bizClean_ne_nil hxd

theorem c3_both_populated_witness :
    ((∃ l ∈ splitNL (pstrip "exceptions 9\nbusiness metric 1".data), bizQ l = true) ∧
      (∃ l ∈ splitNL (pstrip "exceptions 9\nbusiness metric 1".data), techEff l = true)) ∧
    (parse_report "exceptions 9\nbusiness metric 1".data).metrics ≠ [] ∧
    (parse_report "exceptions 9\nbusiness metric 1".data).business ≠ [] :=
  ⟨⟨by decide, by decide⟩,
    c3_both_populated "exceptions 9\nbusiness metric 1".data (by decide) (by decide)⟩

/-- C10: when several lines qualify as the technical-metrics line (pass the
keyword and digit tests without being consumed by the business branch),
`parse_report` keeps the cleaned content of the first such line, whereas
when several lines qualify as the business-metrics line it keeps the
cleaned content of the last such line (each later match overwrites the
earlier one). -/
theorem c10_first_tech_last_biz (report : Str) :
    (∀ (i j : Nat) (li lj : Str),
      (splitNL (pstrip report)).get? i = some li →
      (splitNL (pstrip report)).get? j = some lj →
      i < j → techEff li = true → techEff lj = true →
      (∀ k lk, k < i → (splitNL (pstrip report)).get? k = some lk → techEff lk = false) →
      (parse_report report).metrics = metClean li) ∧
    (∀ (i j : Nat) (li lj : Str),
      (splitNL (pstrip report)).get? i = some li →
      (splitNL (pstrip report)).get? j = some lj →
      i < j → bizQ li = true → bizQ lj = true →
      (∀ k lk, j < k → (splitNL (pstrip report)).get? k = some lk → bizQ lk = false) →
      (parse_report report).business = bizClean lj) := by
  constructor
  · intro i j li lj hgi hgj hij hpi hpj hbefore
    have hfind : (splitNL (pstrip report)).find? techEff = some li :=
      find?_eq_of_first hgi hpi hbefore
    show (List.foldl metricsStep ([], []) (splitNL (pstrip report))).1 = metClean li
    rw [scanMetrics_fst, if_pos rfl, hfind]
  · intro i j li lj hgi hgj hij hpi hpj hafter
    have hlast : ((splitNL (pstrip report)).filter bizQ).getLast? = some lj :=
      filter_getLast?_of_last hgj hpj hafter
    show (List.foldl metricsStep ([], []) (splitNL (pstrip report))).2 = bizClean lj
    rw [scanMetrics_snd, hlast]

theorem c10_first_tech_last_biz_witness :
    (parse_report "exceptions 5\nexceptions 6\nbusiness metric 1\nbusiness metric 2".data).metrics
        = "exceptions 5".data ∧
    (parse_report "exceptions 5\nexceptions 6\nbusiness metric 1\nbusiness metric 2".data).business
        = "business metric 2".data := by
  have h := c10_first_tech_last_biz
    "exceptions 5\nexceptions 6\nbusiness metric 1\nbusiness metric 2".data
  constructor
  · have h1 := h.1 0 1 "exceptions 5".data "exceptions 6".data
      (by decide) (by decide) (by decide) (by decide) (by decide)
      (fun k lk hk hget => absurd hk (by omega))
    rw [h1]
    decide
  · have h2 := h.2 2 3 "business metric 1".data "business metric 2".data
      (by decide) (by decide) (by decide) (by decide) (by decide)
      (fun k lk hk hget => by
        have hlen : (splitNL (pstrip
            "exceptions 5\nexceptions 6\nbusiness metric 1\nbusiness metric 2".data)).length = 4 := by
          decide
        have := List.get?_eq_none.mpr (by omega : (splitNL (pstrip
            "exceptions 5\nexceptions 6\nbusiness metric 1\nbusiness metric 2".data)).length ≤ k)
        rw [this] at hget
        exact absurd hget (by simp))
    rw [h2]
    decide

/-- C4 (as frozen) is refuted: `"1. abc"` is a non-matching, non-blank line
sitting between two captured issues, yet scanning does not stop there —
the code additionally requires the line not to start with a rank prefix
`"1."`–`"9."` before breaking, so the later issue is still captured. -/
theorem c4_counterexample :
    tryMatches (pstrip "1. abc".data) = none ∧
    pstrip "1. abc".data ≠ [] ∧
    (parse_report "Top Issues:\n1. **5×** first\n1. abc\n2. **3×** second".data).issues =
      [(5, "first".data), (3, "second".data)] := by
  decide

/-- C4 (amended): each line is tried against the three numbered-line
patterns in order of decreasing strictness (the first match wins), and once
at least one issue has been captured, scanning stops at the first
non-matching, non-blank line that neither contains a section-header phrase
nor starts with one of the rank prefixes `"1."`–`"9."`; no line after such
a line is examined. -/
theorem c4_issue_scan_order_and_stop :
    (∀ s r, match1 s = some r → tryMatches s = some r) ∧
    (∀ s r, match1 s = none → match2 s = some r → tryMatches s = some r) ∧
    (∀ s, match1 s = none → match2 s = none → tryMatches s = match3 s) ∧
    (∀ (l : Str) (ls : List Str) (acc : List (Nat × Str)),
      acc ≠ [] → headerCond l = false → tryMatches (pstrip l) = none →
      pstrip l ≠ [] → startsRank (pstrip l) = false →
      issuesScan (l :: ls) true acc = acc) := by
  refine ⟨?_, ?_, ?_, ?_⟩
  · intro s r h
    unfold tryMatches
    rw [h]
  · intro s r h1 h2
    unfold tryMatches
    rw [h1, h2]
  · intro s h1 h2
    unfold tryMatches
    rw [h1, h2]
  · intro l ls acc hacc hhd htm hne hsr
    unfold issuesScan
    rw [if_neg (by simp [hhd]), if_pos rfl, htm]
    rw [if_pos ⟨hne, hsr⟩, if_pos hacc]

theorem c4_issue_scan_order_and_stop_witness :
    (match1 "1. **5×** x".data = some ("5".data, "x".data) ∧
      tryMatches "1. **5×** x".data = some ("5".data, "x".data)) ∧
    (headerCond "stop here".data = false ∧
      tryMatches (pstrip "stop here".data) = none ∧
      pstrip "stop here".data ≠ [] ∧
      startsRank (pstrip "stop here".data) = false ∧
      issuesScan ["stop here".data, "2. **9×** lost".data] true [(5, "first".data)] =
        [(5, "first".data)]) := by
  refine ⟨⟨by decide, ?_⟩, ⟨by decide, by decide, by decide, by decide, ?_⟩⟩
  · exact c4_issue_scan_order_and_stop.1 _ _ (by decide)
  · exact c4_issue_scan_order_and_stop.2.2.2 "stop here".data ["2. **9×** lost".data]
      [(5, "first".data)] (by decide) (by decide) (by decide) (by decide) (by decide)

/-! ## `generate_chart_url` / `create_ascii_chart` and the timeline renderer
(src/post_to_slack.py lines 24-155, 466-498) -/

/-- Python `str.split(sep)` for a single-character separator. -/
def splitOn (sep : Char) : Str → List Str
  | [] => [[]]
  | c :: cs =>
    match splitOn sep cs with
    | [] => [[]]
    | h :: t => if c = sep then [] :: h :: t else (c :: h) :: t

/-- One timeline row (`DataType == 'Timeline'`): its `timestamp` string and
exception `Count`. -/
structure TimelineEntry where
  timestamp : Str
  Count : Nat
deriving DecidableEq, Repr

/-- Python string `<` (lexicographic by code point). -/
def lexLt : Str → Str → Bool
  | [], [] => false
  | [], _ :: _ => true
  | _ :: _, [] => false
  | a :: as, b :: bs =>
    if a.toNat < b.toNat then true
    else if b.toNat < a.toNat then false
    else lexLt as bs

/-- Stable insertion used to model Python's stable
`sorted(…, key=lambda x: x.get('timestamp', ''))`. -/
def insertByTs (x : TimelineEntry) : List TimelineEntry → List TimelineEntry
  | [] => [x]
  | y :: ys =>
    if lexLt y.timestamp x.timestamp then y :: insertByTs x ys else x :: y :: ys

def sortByTs : List TimelineEntry → List TimelineEntry
  | [] => []
  | x :: xs => insertByTs x (sortByTs xs)

/-- `sorted_data[-24:] if len(sorted_data) > 24 else sorted_data`. -/
def recent24 (l : List TimelineEntry) : List TimelineEntry :=
  if l.length > 24 then l.drop (l.length - 24) else l

/-- The label/data extraction loop (lines 37-49): take the five characters
after the first `'T'` of the timestamp; an entry without `'T'` raises
`IndexError` and is skipped by the bare `except`. -/
def timelinePoints : List TimelineEntry → List (Str × Nat)
  | [] => []
  | e :: es =>
    if e.timestamp ≠ [] then
      match (splitOn 'T' e.timestamp).get? 1 with
      | some seg => (seg.take 5, e.Count) :: timelinePoints es
      | none => timelinePoints es
    else timelinePoints es

def hexLower (n : Nat) : Char := "0123456789abcdef".data.getD n '0'

def hex4 (n : Nat) : Str :=
  [hexLower (n / 4096 % 16), hexLower (n / 256 % 16), hexLower (n / 16 % 16), hexLower (n % 16)]

/-- `json.dumps` escaping of one character (default `ensure_ascii=True`). -/
def jsonEscapeChar (c : Char) : Str :=
  if c = '"' then ['\\', '"']
  else if c = '\\' then ['\\', '\\']
  else if c = '\n' then ['\\', 'n']
  else if c = '\r' then ['\\', 'r']
  else if c = '\t' then ['\\', 't']
  else if c = '\x08' then ['\\', 'b']
  else if c = '\x0c' then ['\\', 'f']
  else if c.toNat < 0x20 then '\\' :: 'u' :: hex4 c.toNat
  else if c.toNat < 0x7f then [c]
  else if c.toNat < 0x10000 then '\\' :: 'u' :: hex4 c.toNat
  else
    ('\\' :: 'u' :: hex4 (0xd800 + (c.toNat - 0x10000) / 1024)) ++
      ('\\' :: 'u' :: hex4 (0xdc00 + (c.toNat - 0x10000) % 1024))

def jsonStr (s : Str) : Str :=
  '"' :: s.foldr (fun c acc => jsonEscapeChar c ++ acc) ['"']

def jsonStrList (ls : List Str) : Str :=
  '[' :: (List.intercalate [','] (ls.map jsonStr) ++ [']'])

def jsonNatList (ns : List Nat) : Str :=
  '[' :: (List.intercalate [','] (ns.map natDigits) ++ [']'])

/-- The three constant pieces of the chart configuration around the label
and data arrays, as laid out by `json.dumps(chart_config,
separators=(',', ':'))` (lines 55-111). -/
def chartPre : Str := "\x7b\"type\":\"bar\",\"data\":\x7b\"labels\":".data

def chartMid : Str := ",\"datasets\":[\x7b\"label\":\"Exceptions\",\"data\":".data

def chartPost : Str := ",\"backgroundColor\":\"rgba(220,38,38,0.9)\",\"borderColor\":\"rgba(220,38,38,1)\",\"borderWidth\":1\x7d]\x7d,\"options\":\x7b\"responsive\":true,\"maintainAspectRatio\":true,\"legend\":\x7b\"display\":false\x7d,\"title\":\x7b\"display\":true,\"text\":\"Exception Timeline - Last 24 Hours\",\"fontSize\":18,\"fontColor\":\"#e5e7eb\"\x7d,\"scales\":\x7b\"yAxes\":[\x7b\"ticks\":\x7b\"beginAtZero\":true,\"fontColor\":\"#9ca3af\"\x7d,\"scaleLabel\":\x7b\"display\":true,\"labelString\":\"Count\",\"fontColor\":\"#9ca3af\"\x7d,\"gridLines\":\x7b\"color\":\"rgba(156,163,175,0.2)\"\x7d\x7d],\"xAxes\":[\x7b\"ticks\":\x7b\"fontColor\":\"#9ca3af\"\x7d,\"scaleLabel\":\x7b\"display\":true,\"labelString\":\"Time (UTC)\",\"fontColor\":\"#9ca3af\"\x7d,\"gridLines\":\x7b\"color\":\"rgba(156,163,175,0.2)\"\x7d\x7d]\x7d\x7d\x7d".data

/-- The serialized chart configuration with the label and data arrays
spliced in. -/
def chartConfigJson (labels : List Str) (data : List Nat) : Str :=
  chartPre ++ jsonStrList labels ++ chartMid ++ jsonNatList data ++ chartPost

/-- A character `urllib.parse.quote` leaves unescaped (letters, digits,
`_.-~` and the default safe character `/`). -/
def quoteSafe (c : Char) : Bool :=
  c.isAlpha || c.isDigit || c = '_' || c = '.' || c = '-' || c = '~' || c = '/'

def utf8Bytes (c : Char) : List Nat :=
  let n := c.toNat
  if n < 0x80 then [n]
  else if n < 0x800 then [0xc0 + n / 64, 0x80 + n % 64]
  else if n < 0x10000 then [0xe0 + n / 4096, 0x80 + n / 64 % 64, 0x80 + n % 64]
  else [0xf0 + n / 0x40000, 0x80 + n / 4096 % 64, 0x80 + n / 64 % 64, 0x80 + n % 64]

def hexUpper (n : Nat) : Char := "0123456789ABCDEF".data.getD n '0'

/-- `urllib.parse.quote` (percent-encoding of the UTF-8 bytes). -/
def pctEncode (s : Str) : Str :=
  s.foldr
    (fun c acc =>
      (if quoteSafe c then [c]
       else (utf8Bytes c).foldr (fun b a => '%' :: hexUpper (b / 16) :: hexUpper (b % 16) :: a) []) ++ acc)
    []

/-- The chart URL before the length guard (lines 109-115). -/
def buildChartUrl (td : List TimelineEntry) : Option Str :=
  if td = [] then none
  else
    let pts := timelinePoints (recent24 (sortByTs td))
    if pts = [] then none
    else
      some ("https://quickchart.io/chart?c=".data ++
        pctEncode (chartConfigJson (pts.map (·.1)) (pts.map (·.2))) ++
        "&w=800&h=400&bkg=%23111827&devicePixelRatio=2".data)

/-- `generate_chart_url`: the URL is dropped when longer than 2000. -/
def generate_chart_url (td : List TimelineEntry) : Option Str :=
  match buildChartUrl td with
  | none => none
  | some u => if u.length > 2000 then none else some u

/-- `[-12:]` of the sorted data (line 131). -/
def recent12 (l : List TimelineEntry) : List TimelineEntry :=
  if l.length > 12 then l.drop (l.length - 12) else l

/-- `%H:%M` of `datetime.fromisoformat(ts.replace('Z', '+00:00'))`,
modelled structurally on the ISO shapes that occur: a date alone renders as
`00:00`, a date followed by `'T'HH:MM` renders those five characters, and
anything else raises and is skipped. -/
def isoHourMin (ts : Str) : Option Str :=
  match ts with
  | y1 :: y2 :: y3 :: y4 :: '-' :: m1 :: m2 :: '-' :: d1 :: d2 :: rest =>
    if [y1, y2, y3, y4, m1, m2, d1, d2].all Char.isDigit then
      match rest with
      | [] => some "00:00".data
      | 'T' :: h1 :: h2 :: ':' :: n1 :: n2 :: _ =>
        if [h1, h2, n1, n2].all Char.isDigit then some [h1, h2, ':', n1, n2] else none
      | _ => none
    else none
  | _ => none

def padLeft5 (s : Str) : Str := List.replicate (5 - s.length) ' ' ++ s

/-- One `"HH:MM ███    42"` line of the ASCII chart (lines 137-152). -/
def asciiChartLine (maxCount : Nat) (e : TimelineEntry) : Option Str :=
  if e.timestamp ≠ [] then
    match isoHourMin e.timestamp with
    | some lab =>
      some (lab ++ [' '] ++
        List.replicate (if maxCount > 0 then e.Count * 20 / maxCount else 0) '█' ++
        [' '] ++ padLeft5 (natDigits e.Count))
    | none => none
  else none

/-- `create_ascii_chart` (lines 124-155). -/
def create_ascii_chart (td : List TimelineEntry) : Option Str :=
  if td = [] then none
  else
    let recent := recent12 (sortByTs td)
    let maxCount :=
      match recent.map (·.Count) with
      | [] => 1
      | c :: cs => cs.foldl max c
    some (List.intercalate ['\n']
      ("📊 *Exception Timeline (Last 12 Hours)*\n```".data ::
        (recent.filterMap (asciiChartLine maxCount) ++ ["```".data])))

/-- The timeline section choice of the renderer (lines 466-498): prefer the
image URL, else the ASCII chart, else no section. -/
def timelineRender (td : List TimelineEntry) : Option (Str ⊕ Str) :=
  if td = [] then none
  else
    match generate_chart_url td with
    | some u => some (Sum.inl u)
    | none =>
      match create_ascii_chart td with
      | some a => some (Sum.inr a)
      | none => none

/-- C7: `generate_chart_url` never returns a URL longer than 2000
characters; when the encoded URL exceeds 2000 characters it returns no URL
and the renderer falls back to the text-based timeline chart. -/
theorem c7_chart_url_bound :
    (∀ (td : List TimelineEntry) (u : Str),
      generate_chart_url td = some u → u.length ≤ 2000) ∧
    (∀ (td : List TimelineEntry) (u : Str),
      buildChartUrl td = some u → 2000 < u.length →
      generate_chart_url td = none ∧
      ∃ a, create_ascii_chart td = some a ∧ timelineRender td = some (Sum.inr a)) := by
  constructor
  · intro td u h
    unfold generate_chart_url at h
    split at h
    · exact absurd h (by simp)
    · split at h
      · exact absurd h (by simp)
      · next hle =>
        rw [Option.some_inj] at h
        subst h
        omega
  · intro td u hb hlen
    have htd : td ≠ [] := by
      intro he
      subst he
      unfold buildChartUrl at hb
      simp at hb
    have hgen : generate_chart_url td = none := by
      unfold generate_chart_url
      rw [hb]
      show (if u.length > 2000 then none else some u) = none
      rw [if_pos hlen]
    have hascii : ∃ a, create_ascii_chart td = some a := by
      unfold create_ascii_chart
      rw [if_neg htd]
      exact ⟨_, rfl⟩
    obtain ⟨a, ha⟩ := hascii
    refine ⟨hgen, a, ha, ?_⟩
    unfold timelineRender
    rw [if_neg htd, hgen, ha]

lemma foldr_glue (g : Char → Str) (X : Str) (l : Str) :
    List.foldr (fun c acc => g c ++ acc) X l
      = List.foldr (fun c acc => g c ++ acc) [] l ++ X := by
  induction l with
  | nil => rfl
  | cons c cs ih => simp [List.foldr_cons, ih]

lemma pctEncode_append (a b : Str) :
    pctEncode (a ++ b) = pctEncode a ++ pctEncode b := by
  unfold pctEncode
  rw [List.foldr_append]
  exact foldr_glue _ _ a

lemma pctEncode_replicate_zero (n : Nat) :
    pctEncode (List.replicate n '0') = List.replicate n '0' := by
  induction n with
  | zero => rfl
  | succ n ih =>
    rw [List.replicate_succ]
    show (if quoteSafe '0' then ['0']
        else (utf8Bytes '0').foldr (fun b a => '%' :: hexUpper (b / 16) :: hexUpper (b % 16) :: a) [])
      ++ pctEncode (List.replicate n '0') = List.replicate (n + 1) '0'
    rw [if_pos (by decide), ih]
    simp [List.replicate_succ]

lemma natDigitsF_fuel : ∀ (n f f' : Nat), n ≤ f → n ≤ f' → natDigitsF f n = natDigitsF f' n := by
  intro n
  induction n using Nat.strong_induction_on with
  | _ n ih =>
    intro f f' hf hf'
    match f, f' with
    | 0, 0 => rfl
    | 0, g + 1 =>
      have hn : n = 0 := by omega
      subst hn
      simp [natDigitsF]
    | g + 1, 0 =>
      have hn : n = 0 := by omega
      subst hn
      simp [natDigitsF]
    | g + 1, g' + 1 =>
      by_cases hn : n = 0
      · subst hn
        simp [natDigitsF]
      · rw [natDigitsF, natDigitsF, if_neg hn, if_neg hn]
        have hlt : n / 10 < n := Nat.div_lt_self (Nat.pos_of_ne_zero hn) (by omega)
        rw [ih (n / 10) hlt g g' (by omega) (by omega)]

lemma natDigits_pow10 (k : Nat) : natDigits (10 ^ k) = '1' :: List.replicate k '0' := by
  induction k with
  | zero => rfl
  | succ k ih =>
    have hk : 0 < 10 ^ k := pow_pos (by omega) k
    have hsucc : 10 ^ (k + 1) = 10 ^ k * 10 := pow_succ 10 k
    have hpos : 0 < 10 ^ (k + 1) := pow_pos (by omega) (k + 1)
    unfold natDigits
    rw [if_neg (by omega)]
    obtain ⟨m, hm⟩ : ∃ m, 10 ^ (k + 1) = m + 1 := ⟨10 ^ (k + 1) - 1, by omega⟩
    rw [hm, natDigitsF, if_neg (by omega), ← hm]
    have hdiv : 10 ^ (k + 1) / 10 = 10 ^ k := by
      rw [hsucc]
      exact Nat.mul_div_cancel _ (by omega)
    have hmod : 10 ^ (k + 1) % 10 = 0 := by
      rw [hsucc]
      exact Nat.mul_mod_left (10 ^ k) 10
    rw [hdiv, hmod]
    have hfuel : natDigitsF m (10 ^ k) = natDigitsF (10 ^ k) (10 ^ k) :=
      natDigitsF_fuel (10 ^ k) m (10 ^ k) (by omega) (le_refl _)
    have hdef : natDigitsF (10 ^ k) (10 ^ k) = natDigits (10 ^ k) := by
      unfold natDigits
      rw [if_neg (by omega)]
    rw [hfuel, hdef, ih]
    show '1' :: (List.replicate k '0' ++ [digitChar 0]) = '1' :: List.replicate (k + 1) '0'
    have : digitChar 0 = '0' := rfl
    rw [this, ← List.replicate_succ']

lemma intercalate_single (sep x : Str) : List.intercalate sep [x] = x := by
  simp [List.intercalate]

lemma jsonNatList_single (n : Nat) :
    jsonNatList [n] = '[' :: (natDigits n ++ [']']) := by
  unfold jsonNatList
  rw [List.map_singleton, intercalate_single]

def bigTd : List TimelineEntry := [⟨"2026-01-30T08:00:00Z".data, 10 ^ 900⟩]

set_option maxRecDepth 6000 in
set_option exponentiation.threshold 1000 in
lemma buildChartUrl_bigTd :
    buildChartUrl bigTd =
      some ("https://quickchart.io/chart?c=".data ++
        pctEncode (chartConfigJson ["08:00".data] [10 ^ 900]) ++
        "&w=800&h=400&bkg=%23111827&devicePixelRatio=2".data) := by
  unfold buildChartUrl
  rw [if_neg (by decide)]
  have hpts : timelinePoints (recent24 (sortByTs bigTd)) = [("08:00".data, 10 ^ 900)] := by
    decide
  simp only [hpts]
  rw [if_neg (by simp)]
  rfl

set_option maxRecDepth 6000 in
lemma pct_chartPre_len : (pctEncode chartPre).length = 59 := by decide

set_option maxRecDepth 6000 in
lemma pct_chartMid_len : (pctEncode chartMid).length = 72 := by decide

set_option maxRecDepth 6000 in
lemma pct_chartPost_len : (pctEncode chartPost).length = 1064 := by decide

set_option maxRecDepth 6000 in
lemma pct_lab_len : (pctEncode (jsonStrList ["08:00".data])).length = 19 := by decide

set_option maxRecDepth 6000 in
lemma big_url_len :
    2000 < ("https://quickchart.io/chart?c=".data ++
      pctEncode (chartConfigJson ["08:00".data] [10 ^ 900]) ++
      "&w=800&h=400&bkg=%23111827&devicePixelRatio=2".data).length := by
  have hdata : jsonNatList [10 ^ 900] = (['['] ++ (['1'] ++ List.replicate 900 '0')) ++ [']'] := by
    rw [jsonNatList_single, natDigits_pow10]
    simp
  unfold chartConfigJson
  rw [hdata]
  simp only [pctEncode_append, List.length_append, pctEncode_replicate_zero,
    List.length_replicate, pct_chartPre_len, pct_chartMid_len, pct_chartPost_len, pct_lab_len]
  have h1 : (pctEncode ['[']).length = 3 := by decide
  have h2 : (pctEncode [']']).length = 3 := by decide
  have h3 : (pctEncode ['1']).length = 1 := by decide
  have h4 : ("https://quickchart.io/chart?c=".data).length = 30 := by decide
  have h5 : ("&w=800&h=400&bkg=%23111827&devicePixelRatio=2".data).length = 45 := by decide
  omega

theorem c7_chart_url_bound_witness :
    ((generate_chart_url [⟨"2026-01-30T08:00:00Z".data, 777⟩]).getD []).length ≤ 2000 ∧
    generate_chart_url bigTd = none ∧
    (∃ a, create_ascii_chart bigTd = some a ∧ timelineRender bigTd = some (Sum.inr a)) := by
  refine ⟨?_, ?_⟩
  · cases h : generate_chart_url [⟨"2026-01-30T08:00:00Z".data, 777⟩] with
    | none => simp
    | some u => simpa using c7_chart_url_bound.1 _ u h
  · exact c7_chart_url_bound.2 bigTd _ buildChartUrl_bigTd big_url_len

/-! ## `format_report` (src/format_report.py lines 23-121)

The JSON plumbing is out of scope; the model starts from the values the
function extracts: the `Summary` row, the three business counters, and the
`ExceptionGroup` rows. -/

structure SummaryVals where
  TotalExceptions : Nat
  TotalRequests : Nat
  TotalDependencies : Nat
  FailedDependencies : Nat
  P95ResponseTime : Nat
deriving DecidableEq, Repr

structure BusinessVals where
  offers : Nat
  heartbeats : Nat
  upsells : Nat
deriving DecidableEq, Repr

/-- Stable insertion modelling Python's stable
`exception_groups.sort(key=lambda x: x.get('Count', 0), reverse=True)`:
descending by `Count`, ties keep source order. -/
def insertIssue (x : IssueRec) : List IssueRec → List IssueRec
  | [] => [x]
  | y :: ys => if x.Count ≥ y.Count then x :: y :: ys else y :: insertIssue x ys

def sortIssues : List IssueRec → List IssueRec
  | [] => []
  | x :: xs => insertIssue x (sortIssues xs)

def topIssues (groups : List IssueRec) : List IssueRec := (sortIssues groups).take 5

/-- `f"{i}. **{count:,}×** {description}"`. -/
def issueLine (rank : Nat) (r : IssueRec) : Str :=
  natDigits rank ++ ('.' :: ' ' :: '*' :: '*' ::
    (fmtComma r.Count ++ ('×' :: '*' :: '*' :: ' ' :: issueDesc r)))

/-- The numbered issue lines, each terminated by `"\n"`. -/
def issueLinesFrom (rank : Nat) : List IssueRec → Str
  | [] => []
  | r :: rs => issueLine rank r ++ '\n' :: issueLinesFrom (rank + 1) rs

/-- The operation named in the action line (lines 111-115). -/
def topOperation (problemId : Str) : Str :=
  if problemId ≠ [] then
    match searchAtOp problemId with
    | some o => o
    | none => "the top issue".data
  else "the top issue".data

/-- The action line without its surrounding newlines (lines 103-119);
`int((top_count / total_exceptions * 100))` is modelled as exact division
truncated to an integer. -/
def actionLine (tops : List IssueRec) (totalExceptions : Nat) : Str :=
  match tops with
  | [] => "✅ No major issues detected".data
  | top :: _ =>
    "🚨 Action Required: Investigate ".data ++ topOperation top.problemId ++
      " null-safety - accounts for ".data ++
      natDigits (if totalExceptions > 0 then top.Count * 100 / totalExceptions else 0) ++
      "% of exceptions".data

def metricsLine (s : SummaryVals) : Str :=
  "Metrics: ".data ++ fmtComma s.TotalExceptions ++ " exceptions | ".data ++
    fmtComma s.TotalRequests ++ " requests | ".data ++ fmtComma s.TotalDependencies ++
    " dependencies (".data ++ fmtComma s.FailedDependencies ++ " failed) | P95: ".data ++
    natDigits s.P95ResponseTime ++ "ms".data

def businessLine (b : BusinessVals) : Str :=
  "Business Metrics: ".data ++ fmtComma b.offers ++ " offers | ".data ++
    fmtComma b.heartbeats ++ " player heartbeats | ".data ++
    fmtComma b.upsells ++ " upsells".data

def statusLine (totalExceptions : Nat) (today : Str) : Str :=
  statusEmoji totalExceptions ++ " LoA Player Health Status - ".data ++ today

/-- The full report text; `today` stands for
`datetime.now().strftime("%B %d, %Y")`. -/
def format_report (s : SummaryVals) (b : BusinessVals) (groups : List IssueRec)
    (today : Str) : Str :=
  statusLine s.TotalExceptions today ++ "\n\n".data ++ metricsLine s ++ "\n\n".data ++
    businessLine b ++ "\n\nTop 5 Problems:\n".data ++
    issueLinesFrom 1 (topIssues groups) ++
    ('\n' :: (actionLine (topIssues groups) s.TotalExceptions ++ ['\n']))

/-! ## The renderer's per-field numeric patterns
(src/post_to_slack.py lines 404-413) -/

/-- Match `\s*<lit>` (IGNORECASE) after the captured number; the literal
never starts with whitespace, so the maximal whitespace run is the only
candidate. -/
def tryLit (lit cap t : Str) : Option Str :=
  if icasePrefix lit (t.dropWhile wsB) then some cap else none

/-- The optional `[KMB]?` (IGNORECASE), greedy with fallback. -/
def tryKMB (lit cap t : Str) : Option Str :=
  match t with
  | k :: t' =>
    if lowerC k = 'k' ∨ lowerC k = 'm' ∨ lowerC k = 'b' then
      match tryLit lit (cap ++ [k]) t' with
      | some r => some r
      | none => tryLit lit cap t
    else tryLit lit cap t
  | [] => tryLit lit cap t

/-- The optional `(?:\.[0-9]+)?`, greedy with fallback. -/
def tryFrac (lit cap t : Str) : Option Str :=
  match t with
  | '.' :: t' =>
    let ds := t'.takeWhile Char.isDigit
    if ds ≠ [] then
      match tryKMB lit (cap ++ '.' :: ds) (t'.drop ds.length) with
      | some r => some r
      | none => tryKMB lit cap t
    else tryKMB lit cap t
  | _ => tryKMB lit cap t

/-- Match `([0-9,]+(?:\.[0-9]+)?[KMB]?)\s*<lit>` at the head of `s`
(a shorter `[0-9,]+` run cannot help: the character it would give back is a
digit or comma, on which none of the following pieces can match). -/
def numUnitAt (lit s : Str) : Option Str :=
  match s with
  | c :: _ =>
    if numChar c then tryFrac lit (s.takeWhile numChar) (s.drop (s.takeWhile numChar).length)
    else none
  | [] => none

/-- `re.search` of the number-before-unit patterns (`exceptions?`,
`requests?`, `dependencies`): leftmost match, returning group 1. -/
def findNumBefore (lit : Str) : Str → Option Str
  | [] => none
  | c :: cs =>
    match numUnitAt lit (c :: cs) with
    | some r => some r
    | none => findNumBefore lit cs

/-- Match `\(([0-9,]+(?:\.[0-9]+)?[KMB]?)\s*failed\)` at the head of `s`. -/
def failedAt (s : Str) : Option Str :=
  match s with
  | '(' :: t =>
    (match t with
     | c :: _ =>
       if numChar c then
         tryFrac "failed)".data (t.takeWhile numChar) (t.drop (t.takeWhile numChar).length)
       else none
     | [] => none)
  | _ => none

def findFailed : Str → Option Str
  | [] => none
  | c :: cs =>
    match failedAt (c :: cs) with
    | some r => some r
    | none => findFailed cs

/-- Match `P95:\s*([0-9,]+(?:\.[0-9]+)?)ms` (IGNORECASE) at the head. -/
def p95At (s : Str) : Option Str :=
  if icasePrefix "p95:".data s then
    let t := (s.drop 4).dropWhile wsB
    match t with
    | c :: _ =>
      if numChar c then
        let num := t.takeWhile numChar
        match t.drop num.length with
        | '.' :: t' =>
          let ds := t'.takeWhile Char.isDigit
          if ds ≠ [] ∧ icasePrefix "ms".data (t'.drop ds.length) then some (num ++ '.' :: ds)
          else none
        | rest => if icasePrefix "ms".data rest then some num else none
      else none
    | [] => none
  else none

def findP95 : Str → Option Str
  | [] => none
  | c :: cs =>
    match p95At (c :: cs) with
    | some r => some r
    | none => findP95 cs

/-- `metrics_clean = metrics.replace('**Metrics:**', '').strip()` (line 405). -/
def metricsClean2 (metrics : Str) : Str :=
  pstrip (replaceAll "**Metrics:**".data [] metrics)

/-- The numeric value recovered from a captured group, commas stripped. -/
def capValue (cap : Str) : Nat := digitsToNat (stripCommas cap)

/-! ## Substring occurrence analysis -/

lemma infix_append_right {k b : Str} (h : k <:+: b) (a : Str) : k <:+: a ++ b := by
  obtain ⟨s, t, hst⟩ := h
  exact ⟨a ++ s, t, by rw [← hst]; simp⟩

lemma infix_append_left {k a : Str} (h : k <:+: a) (b : Str) : k <:+: a ++ b := by
  obtain ⟨s, t, hst⟩ := h
  exact ⟨s, t ++ b, by rw [← hst]; simp⟩

lemma not_infix_of_not_mem {k s : Str} {c : Char} (hck : c ∈ k) (hcs : c ∉ s) :
    ¬ k <:+: s := fun h => hcs (h.sublist.subset hck)

lemma not_infix_of_longer {k s : Str} (h : s.length < k.length) : ¬ k <:+: s :=
  fun hinf => absurd hinf.length_le (by omega)

lemma infix_lower {k s : Str} (h : k <:+: s) : lowerS k <:+: lowerS s := by
  obtain ⟨x, t, hst⟩ := h
  exact ⟨lowerS x, lowerS t, by rw [← hst]; simp [lowerS]⟩

/-- Occurrence decomposition: an occurrence of `k` in `a ++ b` lies in `a`,
lies in `b`, or spans the junction. -/
lemma not_infix_append {k a b : Str} (ha : ¬ k <:+: a) (hb : ¬ k <:+: b)
    (hspan : ∀ i, 0 < i → i < k.length → ¬ (k.take i <:+ a ∧ k.drop i <+: b)) :
    ¬ k <:+: (a ++ b) := by
  rintro ⟨s, t, hst⟩
  rw [List.append_assoc] at hst
  rcases List.append_eq_append_iff.mp hst with ⟨a', ha1, ha2⟩ | ⟨c', _, hc2⟩
  · -- a = s ++ a', k ++ t = a' ++ b
    rcases List.append_eq_append_iff.mp ha2 with ⟨x, hx1, _⟩ | ⟨y, hy1, hy2⟩
    · -- a' = k ++ x : the occurrence lies in a
      exact ha ⟨s, x, by rw [ha1, hx1, List.append_assoc]⟩
    · -- k = a' ++ y, b = y ++ t
      by_cases hA : a' = []
      · subst hA
        rw [List.nil_append] at hy1
        exact hb ⟨[], t, by rw [hy2, ← hy1]; rfl⟩
      · by_cases hY : y = []
        · subst hY
          rw [List.append_nil] at hy1
          exact ha ⟨s, [], by rw [ha1, ← hy1, List.append_nil]⟩
        · have hlen : a'.length < k.length := by
            rw [hy1, List.length_append]
            have : 0 < y.length := List.length_pos.mpr hY
            omega
          have hpos : 0 < a'.length := List.length_pos.mpr hA
          apply hspan a'.length hpos hlen
          constructor
          · have htake : k.take a'.length = a' := by
              rw [hy1, List.take_left]
            rw [htake]
            exact ⟨s, ha1.symm⟩
          · have hdrop : k.drop a'.length = y := by
              rw [hy1, List.drop_left]
            rw [hdrop]
            exact ⟨t, hy2.symm⟩
  · -- s = a ++ c', b = c' ++ (k ++ t) : the occurrence lies in b
    exact hb ⟨c', t, by rw [hc2, List.append_assoc]⟩

lemma suffix_getLast? {s a : Str} (h : s <:+ a) (hne : s ≠ []) :
    s.getLast? = a.getLast? := by
  obtain ⟨pre, hpre⟩ := h
  rw [← hpre]
  exact (List.getLast?_append_of_ne_nil pre hne).symm

lemma span_kill_head {k a : Str} {c : Char} (hk : k.head? = some c) (hc : c ∉ a) :
    ∀ i, 0 < i → ¬ (k.take i <:+ a) := by
  intro i hi hsuf
  match k, hk with
  | x :: k', hk =>
    rw [List.head?_cons, Option.some_inj] at hk
    subst hk
    match i, hi with
    | j + 1, _ =>
      rw [List.take_succ_cons] at hsuf
      exact hc (hsuf.sublist.subset (List.mem_cons_self _ _))

lemma span_kill_last {k a : Str} {c : Char} (ha : a.getLast? = some c) (hc : c ∉ k) :
    ∀ i, 0 < i → i ≤ k.length → ¬ (k.take i <:+ a) := by
  intro i hi hile hsuf
  have hne : k.take i ≠ [] := by
    intro he
    have := List.length_take i k
    rw [he] at this
    simp at this
    omega
  have hlast : (k.take i).getLast? = some c := by
    rw [suffix_getLast? hsuf hne, ha]
  have hmem : c ∈ k.take i := getLast?_mem_of_eq hlast
  exact hc ((List.take_subset i k) hmem)

/-! ## The line structure of the composed report -/

def joinNL : List Str → Str
  | [] => []
  | [l] => l
  | l :: l2 :: ls => l ++ '\n' :: joinNL (l2 :: ls)

lemma joinNL_cons_ne (l : Str) (ls : List Str) (h : ls ≠ []) :
    joinNL (l :: ls) = l ++ '\n' :: joinNL ls := by
  cases ls with
  | nil => exact absurd rfl h
  | cons l2 ls' => rfl

lemma splitNL_ne_nil (s : Str) : splitNL s ≠ [] := by
  cases s with
  | nil => simp [splitNL]
  | cons c cs =>
    rw [splitNL]
    cases h : splitNL cs with
    | nil => simp
    | cons h' t => by_cases hc : c = '\n' <;> simp [hc]

lemma splitNL_no_newline {l : Str} (h : '\n' ∉ l) : splitNL l = [l] := by
  induction l with
  | nil => rfl
  | cons c cs ih =>
    have hc : c ≠ '\n' := fun he => h (he ▸ List.mem_cons_self c cs)
    have hcs : '\n' ∉ cs := fun hm => h (List.mem_cons_of_mem c hm)
    rw [splitNL, ih hcs]
    simp [hc]

lemma splitNL_append {l rest : Str} (h : '\n' ∉ l) :
    splitNL (l ++ '\n' :: rest) = l :: splitNL rest := by
  induction l with
  | nil =>
    rw [List.nil_append, splitNL]
    cases hs : splitNL rest with
    | nil => exact absurd hs (splitNL_ne_nil rest)
    | cons h' t => simp
  | cons c cs ih =>
    have hc : c ≠ '\n' := fun he => h (he ▸ List.mem_cons_self c cs)
    have hcs : '\n' ∉ cs := fun hm => h (List.mem_cons_of_mem c hm)
    rw [List.cons_append, splitNL, ih hcs]
    simp [hc]

lemma splitNL_joinNL : ∀ (Ls : List Str), Ls ≠ [] → (∀ l ∈ Ls, '\n' ∉ l) →
    splitNL (joinNL Ls) = Ls := by
  intro Ls
  induction Ls with
  | nil => intro h; exact absurd rfl h
  | cons l ls ih =>
    intro _ hnl
    cases ls with
    | nil => exact splitNL_no_newline (hnl l (List.mem_cons_self _ _))
    | cons l2 ls' =>
      rw [joinNL_cons_ne _ _ (by simp), splitNL_append (hnl l (List.mem_cons_self _ _))]
      rw [ih (by simp) (fun x hx => hnl x (List.mem_cons_of_mem _ hx))]

lemma dropWhile_eq_self_of_head {p : Char → Bool} {l : Str}
    (h : ∀ c, l.head? = some c → p c = false) : l.dropWhile p = l := by
  cases l with
  | nil => rfl
  | cons c cs => exact List.dropWhile_cons_of_neg (by simp [h c rfl])

lemma pstrip_eq_self {s : Str} (h1 : ∀ c, s.head? = some c → wsB c = false)
    (h2 : ∀ c, s.getLast? = some c → wsB c = false) : pstrip s = s := by
  unfold pstrip
  rw [dropWhile_eq_self_of_head h1]
  rw [dropWhile_eq_self_of_head (by intro c hc; rw [List.head?_reverse] at hc; exact h2 c hc)]
  exact List.reverse_reverse s

lemma pstrip_append_newline {s : Str} (h1 : ∀ c, s.head? = some c → wsB c = false)
    (h2 : ∀ c, s.getLast? = some c → wsB c = false) : pstrip (s ++ ['\n']) = s := by
  cases s with
  | nil => decide
  | cons c cs =>
    have e1 : ((c :: cs) ++ ['\n'] : Str) = c :: (cs ++ ['\n']) := rfl
    have e2 : List.dropWhile wsB (c :: (cs ++ ['\n'])) = c :: (cs ++ ['\n']) :=
      List.dropWhile_cons_of_neg (by simp [h1 c rfl])
    have e3 : ((c :: (cs ++ ['\n'])) : Str).reverse = '\n' :: (c :: cs).reverse := by
      rw [← e1, List.reverse_append]
      rfl
    have e4 : List.dropWhile wsB ('\n' :: (c :: cs).reverse) =
        List.dropWhile wsB ((c :: cs).reverse) :=
      List.dropWhile_cons_of_pos (by decide)
    have e5 : List.dropWhile wsB ((c :: cs).reverse) = (c :: cs).reverse :=
      dropWhile_eq_self_of_head (by
        intro x hx
        rw [List.head?_reverse] at hx
        exact h2 x hx)
    unfold pstrip
    rw [e1, e2, e3, e4, e5, List.reverse_reverse]

def issueLinesList (rank : Nat) : List IssueRec → List Str
  | [] => []
  | r :: rs => issueLine rank r :: issueLinesList (rank + 1) rs

/-- The report, as the list of its lines. -/
def reportLines (s : SummaryVals) (b : BusinessVals) (groups : List IssueRec)
    (today : Str) : List Str :=
  [statusLine s.TotalExceptions today, [], metricsLine s, [], businessLine b, [],
    "Top 5 Problems:".data]
    ++ issueLinesList 1 (topIssues groups)
    ++ [[], actionLine (topIssues groups) s.TotalExceptions]

lemma joinNL_issue_tail (act : Str) :
    ∀ (rs : List IssueRec) (rank : Nat),
    joinNL (issueLinesList rank rs ++ [[], act]) = issueLinesFrom rank rs ++ '\n' :: act := by
  intro rs
  induction rs with
  | nil => intro rank; rfl
  | cons r rs' ih =>
    intro rank
    rw [show issueLinesList rank (r :: rs') = issueLine rank r :: issueLinesList (rank + 1) rs'
      from rfl]
    rw [List.cons_append, joinNL_cons_ne _ _ (by simp), ih (rank + 1)]
    rw [show issueLinesFrom rank (r :: rs') = issueLine rank r ++ '\n' :: issueLinesFrom (rank + 1) rs'
      from rfl]
    simp

lemma format_report_join (s : SummaryVals) (b : BusinessVals) (groups : List IssueRec)
    (today : Str) :
    format_report s b groups today = joinNL (reportLines s b groups today) ++ ['\n'] := by
  unfold format_report reportLines
  simp only [List.cons_append, List.nil_append]
  rw [joinNL_cons_ne _ _ (by simp)]
  rw [joinNL_cons_ne _ _ (by simp)]
  rw [joinNL_cons_ne _ _ (by simp)]
  rw [joinNL_cons_ne _ _ (by simp)]
  rw [joinNL_cons_ne _ _ (by simp)]
  rw [joinNL_cons_ne _ _ (by simp)]
  rw [joinNL_cons_ne _ _ (by simp)]
  rw [joinNL_issue_tail]
  simp [List.append_assoc]

/-! ## Decimal formatting facts -/

lemma mem_of_head? {l : Str} {c : Char} (h : l.head? = some c) : c ∈ l := by
  cases l with
  | nil => simp at h
  | cons x xs =>
    rw [List.head?_cons, Option.some_inj] at h
    exact h ▸ List.mem_cons_self x xs

lemma numChar_not_ws {c : Char} (h : numChar c = true) : wsB c = false := by
  rcases Bool.or_eq_true_iff.mp h with hd | hc
  · exact digit_not_ws hd
  · rw [beq_iff_eq] at hc
    subst hc
    decide

lemma digitChar_isDigit (d : Nat) : (digitChar d).isDigit = true := by
  unfold digitChar
  by_cases h : d < 10
  · interval_cases d <;> decide
  · rw [List.getD_eq_default]
    · decide
    · simpa using by omega

lemma natDigitsF_digits : ∀ (f n : Nat), ∀ c ∈ natDigitsF f n, c.isDigit = true := by
  intro f
  induction f with
  | zero => intro n c hc; simp [natDigitsF] at hc
  | succ f ih =>
    intro n c hc
    rw [natDigitsF] at hc
    by_cases hn : n = 0
    · rw [if_pos hn] at hc
      simp at hc
    · rw [if_neg hn] at hc
      rcases List.mem_append.mp hc with h1 | h2
      · exact ih _ c h1
      · rw [List.mem_singleton] at h2
        exact h2 ▸ digitChar_isDigit _
  
lemma natDigits_digits : ∀ c ∈ natDigits n, c.isDigit = true := by
  intro c hc
  unfold natDigits at hc
  by_cases hn : n = 0
  · rw [if_pos hn, List.mem_singleton] at hc
    subst hc
    decide
  · rw [if_neg hn] at hc
    exact natDigitsF_digits n n c hc

lemma natDigits_ne_nil (n : Nat) : natDigits n ≠ [] := by
  unfold natDigits
  by_cases hn : n = 0
  · simp [hn]
  · rw [if_neg hn]
    obtain ⟨m, hm⟩ : ∃ m, n = m + 1 := ⟨n - 1, by omega⟩
    rw [hm, natDigitsF, if_neg (by omega)]
    simp

lemma group3_sub : ∀ (s : Str), ∀ c ∈ group3 s, c ∈ s ∨ c = ',' := by
  intro s
  induction s using group3.induct with
  | case1 d1 d2 d3 d4 rest ih =>
    intro c hc
    rw [group3] at hc
    rcases List.mem_cons.mp hc with rfl | hc
    · left; simp
    rcases List.mem_cons.mp hc with rfl | hc
    · left; simp
    rcases List.mem_cons.mp hc with rfl | hc
    · left; simp
    rcases List.mem_cons.mp hc with rfl | hc
    · right; rfl
    · rcases ih c hc with h | h
      · left
        simp only [List.mem_cons]
        right; right; right
        simpa using h
      · right; exact h
  | case2 s h1 =>
    intro c hc
    rw [group3] at hc
    · exact Or.inl hc
    · exact h1

lemma group3_sup : ∀ (s : Str), ∀ c ∈ s, c ∈ group3 s := by
  intro s
  induction s using group3.induct with
  | case1 d1 d2 d3 d4 rest ih =>
    intro c hc
    rw [group3]
    rcases List.mem_cons.mp hc with rfl | hc
    · simp
    rcases List.mem_cons.mp hc with rfl | hc
    · simp
    rcases List.mem_cons.mp hc with rfl | hc
    · simp
    · simp only [List.mem_cons]
      right; right; right; right
      exact ih c hc
  | case2 s h1 =>
    intro c hc
    rw [group3]
    · exact hc
    · exact h1

lemma group3_ne_nil {s : Str} (h : s ≠ []) : group3 s ≠ [] := by
  intro he
  match s, h with
  | c :: cs, _ =>
    have := group3_sup (c :: cs) c (List.mem_cons_self _ _)
    rw [he] at this
    exact List.not_mem_nil c this

lemma fmtComma_chars {n : Nat} : ∀ c ∈ fmtComma n, numChar c = true := by
  intro c hc
  unfold fmtComma at hc
  rw [List.mem_reverse] at hc
  rcases group3_sub _ c hc with h | h
  · rw [List.mem_reverse] at h
    exact Bool.or_eq_true_iff.mpr (Or.inl (natDigits_digits c h))
  · subst h
    decide

lemma fmtComma_ne_nil (n : Nat) : fmtComma n ≠ [] := by
  unfold fmtComma
  intro he
  rw [List.reverse_eq_nil_iff] at he
  exact group3_ne_nil (by simpa using natDigits_ne_nil n) he

lemma hasDigit_fmtComma (n : Nat) : hasDigit (fmtComma n) = true := by
  obtain ⟨c, hc⟩ : ∃ c, (natDigits n).head? = some c := by
    cases h : natDigits n with
    | nil => exact absurd h (natDigits_ne_nil n)
    | cons x xs => exact ⟨x, rfl⟩
  have hmem : c ∈ natDigits n := mem_of_head? hc
  refine hasDigit_iff.mpr ⟨c, ?_, natDigits_digits c hmem⟩
  unfold fmtComma
  rw [List.mem_reverse]
  exact group3_sup _ c (List.mem_reverse.mpr hmem)

lemma filter_group3 {s : Str} (h : ∀ c ∈ s, c ≠ ',') :
    (group3 s).filter (fun c => decide (c ≠ ',')) = s := by
  induction s using group3.induct with
  | case1 d1 d2 d3 d4 rest ih =>
    rw [group3]
    have hd1 : d1 ≠ ',' := h d1 (by simp)
    have hd2 : d2 ≠ ',' := h d2 (by simp)
    have hd3 : d3 ≠ ',' := h d3 (by simp)
    simp only [List.filter_cons]
    rw [if_pos (by simpa using hd1), if_pos (by simpa using hd2), if_pos (by simpa using hd3),
      if_neg (by simp)]
    rw [ih (fun c hc => h c (by simp only [List.mem_cons]; right; right; right; simpa using hc))]
  | case2 s h1 =>
    rw [group3]
    · rw [List.filter_eq_self]
      intro a ha
      simpa using h a ha
    · exact h1

lemma stripCommas_fmtComma (n : Nat) : stripCommas (fmtComma n) = natDigits n := by
  unfold stripCommas fmtComma
  rw [List.filter_reverse]
  rw [filter_group3 (by
    intro c hc heq
    have := natDigits_digits c (List.mem_reverse.mp hc)
    subst heq
    simp at this)]
  exact List.reverse_reverse _

lemma digitsToNat_append_one (xs : Str) (c : Char) :
    digitsToNat (xs ++ [c]) = digitsToNat xs * 10 + (c.toNat - 48) := by
  unfold digitsToNat
  rw [List.foldl_append]
  rfl

lemma digitChar_toNat {r : Nat} (h : r < 10) : (digitChar r).toNat = 48 + r := by
  interval_cases r <;> decide

lemma digitsToNat_natDigitsF : ∀ (n f : Nat), n ≤ f → digitsToNat (natDigitsF f n) = n := by
  intro n
  induction n using Nat.strong_induction_on with
  | _ n ih =>
    intro f hf
    by_cases hn : n = 0
    · subst hn
      cases f with
      | zero => rfl
      | succ f => simp [natDigitsF, digitsToNat]
    · match f, hf with
      | 0, hf => exact absurd (Nat.le_zero.mp hf) hn
      | g + 1, hf =>
        rw [natDigitsF, if_neg hn, digitsToNat_append_one]
        have hlt : n / 10 < n := Nat.div_lt_self (Nat.pos_of_ne_zero hn) (by omega)
        rw [ih (n / 10) hlt g (by omega)]
        rw [digitChar_toNat (Nat.mod_lt n (by omega))]
        omega

lemma digitsToNat_natDigits (n : Nat) : digitsToNat (natDigits n) = n := by
  unfold natDigits
  by_cases hn : n = 0
  · simp [hn, digitsToNat]
  · rw [if_neg hn]
    exact digitsToNat_natDigitsF n n (le_refl n)

lemma capValue_fmtComma (n : Nat) : capValue (fmtComma n) = n := by
  unfold capValue
  rw [stripCommas_fmtComma, digitsToNat_natDigits]

lemma capValue_natDigits (n : Nat) : capValue (natDigits n) = n := by
  unfold capValue stripCommas
  rw [List.filter_eq_self.mpr (by
    intro a ha
    have := natDigits_digits a ha
    simp only [ne_eq, decide_eq_true_eq]
    intro heq
    subst heq
    simp at this)]
  exact digitsToNat_natDigits n

/-! ## The parsed line list of a composed report -/

lemma no_nl_fmtComma (n : Nat) : '\n' ∉ fmtComma n := by
  intro h
  have := fmtComma_chars '\n' h
  simp [numChar] at this

lemma no_nl_natDigits (n : Nat) : '\n' ∉ natDigits n := by
  intro h
  have := natDigits_digits '\n' h
  simp at this

lemma dotPlusEnd_no_nl {u v : Str} (h : dotPlusEnd u = some v) : '\n' ∉ v := by
  unfold dotPlusEnd at h
  dsimp only at h
  split at h <;> split at h <;>
    first
      | (rename_i hcond
         rw [Option.some_inj] at h
         exact h ▸ hcond.2)
      | exact absurd h (by simp)

lemma tryWsSplit_no_nl {rest v : Str} : ∀ {k : Nat}, tryWsSplit rest k = some v → '\n' ∉ v := by
  intro k
  induction k with
  | zero => intro h; simp [tryWsSplit] at h
  | succ k ih =>
    intro h
    rw [tryWsSplit] at h
    cases hd : dotPlusEnd (rest.drop (k + 1)) with
    | some w =>
      rw [hd, Option.some_inj] at h
      exact h ▸ dotPlusEnd_no_nl hd
    | none =>
      rw [hd] at h
      exact ih h

lemma matchAtHere_no_nl {s v : Str} (h : matchAtHere s = some v) : '\n' ∉ v := by
  unfold matchAtHere at h
  split at h
  · exact absurd h (by simp)
  · split at h
    · next rest _ =>
      unfold afterAt at h
      dsimp only at h
      split at h
      · exact absurd h (by simp)
      · exact tryWsSplit_no_nl h
    · exact absurd h (by simp)

lemma searchAtOp_no_nl : ∀ {s v : Str}, searchAtOp s = some v → '\n' ∉ v := by
  intro s
  induction s with
  | nil => intro v h; simp [searchAtOp] at h
  | cons c cs ih =>
    intro v h
    rw [searchAtOp] at h
    cases hm : matchAtHere (c :: cs) with
    | some w =>
      rw [hm, Option.some_inj] at h
      exact h ▸ matchAtHere_no_nl hm
    | none =>
      rw [hm] at h
      exact ih h

lemma topOperation_no_nl (pid : Str) : '\n' ∉ topOperation pid := by
  unfold topOperation
  split
  · cases hs : searchAtOp pid with
    | some o =>
      dsimp only
      exact searchAtOp_no_nl hs
    | none =>
      dsimp only
      decide
  · decide

lemma no_nl_actionLine (tops : List IssueRec) (te : Nat) : '\n' ∉ actionLine tops te := by
  cases tops with
  | nil =>
    show '\n' ∉ "✅ No major issues detected".data
    decide
  | cons t ts =>
    show '\n' ∉ "🚨 Action Required: Investigate ".data ++ topOperation t.problemId ++
      " null-safety - accounts for ".data ++
      natDigits (if te > 0 then t.Count * 100 / te else 0) ++ "% of exceptions".data
    intro h
    rcases List.mem_append.mp h with h1 | h1
    · rcases List.mem_append.mp h1 with h2 | h2
      · rcases List.mem_append.mp h2 with h3 | h3
        · rcases List.mem_append.mp h3 with h4 | h4
          · revert h4; decide
          · exact topOperation_no_nl _ h4
        · revert h3; decide
      · exact no_nl_natDigits _ h2
    · revert h1; decide

lemma no_nl_metricsLine (s : SummaryVals) : '\n' ∉ metricsLine s := by
  unfold metricsLine
  intro h
  simp only [List.append_assoc, List.mem_append] at h
  rcases h with h | h | h | h | h | h | h | h | h | h | h
  all_goals first
    | (revert h; decide)
    | exact no_nl_fmtComma _ h
    | exact no_nl_natDigits _ h

lemma no_nl_businessLine (b : BusinessVals) : '\n' ∉ businessLine b := by
  unfold businessLine
  intro h
  simp only [List.append_assoc, List.mem_append] at h
  rcases h with h | h | h | h | h | h | h
  all_goals first
    | (revert h; decide)
    | exact no_nl_fmtComma _ h

lemma no_nl_statusLine {te : Nat} {today : Str} (h : '\n' ∉ today) :
    '\n' ∉ statusLine te today := by
  unfold statusLine
  intro hm
  simp only [List.append_assoc, List.mem_append] at hm
  rcases hm with h1 | h1 | h1
  · unfold statusEmoji at h1
    revert h1
    split
    · decide
    · split <;> decide
  · revert h1; decide
  · exact h h1

lemma no_nl_issueLine {rank : Nat} {r : IssueRec} (h : '\n' ∉ issueDesc r) :
    '\n' ∉ issueLine rank r := by
  unfold issueLine
  intro hm
  rcases List.mem_append.mp hm with h1 | h1
  · exact no_nl_natDigits _ h1
  · simp only [List.mem_cons] at h1
    rcases h1 with h2 | h2 | h2 | h2 | hrest
    · revert h2; decide
    · revert h2; decide
    · revert h2; decide
    · revert h2; decide
    · rcases List.mem_append.mp hrest with h3 | h3
      · exact no_nl_fmtComma _ h3
      · simp only [List.mem_cons] at h3
        rcases h3 with h4 | h4 | h4 | h4 | h4
        · revert h4; decide
        · revert h4; decide
        · revert h4; decide
        · revert h4; decide
        · exact h h4

lemma mem_issueLinesList {rs : List IssueRec} {l : Str} :
    ∀ {rk : Nat}, l ∈ issueLinesList rk rs → ∃ i r, r ∈ rs ∧ l = issueLine i r := by
  induction rs with
  | nil => intro rk h; simp [issueLinesList] at h
  | cons r rs' ih =>
    intro rk h
    rw [issueLinesList] at h
    rcases List.mem_cons.mp h with rfl | h1
    · exact ⟨rk, r, List.mem_cons_self _ _, rfl⟩
    · obtain ⟨i, r', hr', hl⟩ := ih h1
      exact ⟨i, r', List.mem_cons_of_mem _ hr', hl⟩

lemma statusEmoji_cases (n : Nat) :
    statusEmoji n = ['🔴'] ∨ statusEmoji n = ['🟡'] ∨ statusEmoji n = ['✅'] := by
  unfold statusEmoji
  split
  · exact Or.inl rfl
  · split
    · exact Or.inr (Or.inl rfl)
    · exact Or.inr (Or.inr rfl)

lemma statusLine_head {te : Nat} {today : Str} :
    ∀ c, (statusLine te today).head? = some c → wsB c = false := by
  intro c hc
  unfold statusLine at hc
  rcases statusEmoji_cases te with h | h | h <;>
    (rw [h] at hc; simp at hc; subst hc; decide)

lemma actionLine_last {tops : List IssueRec} {te : Nat} :
    ∀ c, (actionLine tops te).getLast? = some c → wsB c = false := by
  intro c hc
  cases tops with
  | nil =>
    rw [show (actionLine [] te).getLast? = some 'd' from rfl, Option.some_inj] at hc
    subst hc
    decide
  | cons t ts =>
    rw [show actionLine (t :: ts) te = "🚨 Action Required: Investigate ".data ++
      topOperation t.problemId ++ " null-safety - accounts for ".data ++
      natDigits (if te > 0 then t.Count * 100 / te else 0) ++ "% of exceptions".data from rfl] at hc
    rw [List.getLast?_append_of_ne_nil _
      (show ("% of exceptions".data : Str) ≠ [] by decide)] at hc
    rw [show ("% of exceptions".data).getLast? = some 's' from rfl, Option.some_inj] at hc
    subst hc
    decide

lemma joinNL_head {l : Str} {ls : List Str} (h : l ≠ []) :
    (joinNL (l :: ls)).head? = l.head? := by
  cases ls with
  | nil => rfl
  | cons l2 ls' =>
    rw [joinNL_cons_ne _ _ (by simp)]
    exact List.head?_append_of_ne_nil _ h

lemma joinNL_ne_nil_of_last {Ls : List Str} {l : Str} (h : l ≠ []) :
    joinNL (Ls ++ [l]) ≠ [] := by
  cases Ls with
  | nil => exact h
  | cons a Ls' =>
    rw [List.cons_append, joinNL_cons_ne _ _ (by simp)]
    simp

lemma joinNL_last {l : Str} (h : l ≠ []) :
    ∀ (Ls : List Str), (joinNL (Ls ++ [l])).getLast? = l.getLast? := by
  intro Ls
  induction Ls with
  | nil => rfl
  | cons a Ls' ih =>
    rw [List.cons_append, joinNL_cons_ne _ _ (by simp)]
    rw [List.getLast?_append_of_ne_nil a (List.cons_ne_nil _ _)]
    rw [show ('\n' :: joinNL (Ls' ++ [l]) : Str) = ['\n'] ++ joinNL (Ls' ++ [l]) from rfl]
    rw [List.getLast?_append_of_ne_nil ['\n'] (joinNL_ne_nil_of_last h)]
    exact ih

lemma statusLine_ne_nil (te : Nat) (today : Str) : statusLine te today ≠ [] := by
  unfold statusLine
  rcases statusEmoji_cases te with h | h | h <;> (rw [h]; simp)

lemma actionLine_ne_nil (tops : List IssueRec) (te : Nat) : actionLine tops te ≠ [] := by
  cases tops with
  | nil => show "✅ No major issues detected".data ≠ []; decide
  | cons t ts =>
    show "🚨 Action Required: Investigate ".data ++ topOperation t.problemId ++
      " null-safety - accounts for ".data ++
      natDigits (if te > 0 then t.Count * 100 / te else 0) ++ "% of exceptions".data ≠ []
    simp

/-- Stripping and line-splitting the composed report yields exactly its line list. -/
lemma report_lines_eq (s : SummaryVals) (b : BusinessVals) (groups : List IssueRec)
    (today : Str) (hT : '\n' ∉ today)
    (hI : ∀ r ∈ topIssues groups, '\n' ∉ issueDesc r) :
    splitNL (pstrip (format_report s b groups today)) = reportLines s b groups today := by
  have hsplit : reportLines s b groups today =
      ([statusLine s.TotalExceptions today, [], metricsLine s, [], businessLine b, [],
        "Top 5 Problems:".data] ++ issueLinesList 1 (topIssues groups) ++ ([] : Str) :: []) ++
      [actionLine (topIssues groups) s.TotalExceptions] := by
    unfold reportLines
    simp
  have h1 : ∀ c, (joinNL (reportLines s b groups today)).head? = some c → wsB c = false := by
    intro c hc
    have : (joinNL (reportLines s b groups today)).head? =
        (statusLine s.TotalExceptions today).head? :=
      joinNL_head (statusLine_ne_nil _ _)
    rw [this] at hc
    exact statusLine_head c hc
  have h2 : ∀ c, (joinNL (reportLines s b groups today)).getLast? = some c → wsB c = false := by
    intro c hc
    rw [hsplit, joinNL_last (actionLine_ne_nil _ _)] at hc
    exact actionLine_last c hc
  rw [format_report_join, pstrip_append_newline h1 h2]
  refine splitNL_joinNL _ (by unfold reportLines; simp) ?_
  intro l hl
  unfold reportLines at hl
  simp only [List.append_assoc, List.mem_append, List.mem_cons, List.mem_singleton,
    List.not_mem_nil, or_false] at hl
  rcases hl with (rfl | rfl | rfl | rfl | rfl | rfl | rfl) | hl | rfl | rfl
  · exact no_nl_statusLine hT
  · simp
  · exact no_nl_metricsLine s
  · simp
  · exact no_nl_businessLine b
  · simp
  · decide
  · obtain ⟨i, r, hr, rfl⟩ := mem_issueLinesList hl
    exact no_nl_issueLine (hI r hr)
  · simp
  · exact no_nl_actionLine _ _

/-! ## Scanning helpers over concatenations -/

lemma takeWhile_append_all {p : Char → Bool} {a : Str} (b : Str)
    (h : ∀ c ∈ a, p c = true) : (a ++ b).takeWhile p = a ++ b.takeWhile p := by
  induction a with
  | nil => rfl
  | cons c cs ih =>
    rw [List.cons_append, List.takeWhile_cons_of_pos (h c (List.mem_cons_self _ _))]
    rw [ih (fun x hx => h x (List.mem_cons_of_mem _ hx)), List.cons_append]

lemma dropWhile_append_all {p : Char → Bool} {a : Str} (b : Str)
    (h : ∀ c ∈ a, p c = true) : (a ++ b).dropWhile p = b.dropWhile p := by
  induction a with
  | nil => rfl
  | cons c cs ih =>
    rw [List.cons_append, List.dropWhile_cons_of_pos (h c (List.mem_cons_self _ _))]
    exact ih (fun x hx => h x (List.mem_cons_of_mem _ hx))

lemma takeWhile_append_stop {p : Char → Bool} {a b : Str}
    (ha : ∀ c ∈ a, p c = true) (hb : ∀ c, b.head? = some c → p c = false) :
    (a ++ b).takeWhile p = a := by
  rw [takeWhile_append_all b ha]
  cases b with
  | nil => simp
  | cons c cs => rw [List.takeWhile_cons_of_neg (by simp [hb c rfl]), List.append_nil]

lemma lowerS_append (a b : Str) : lowerS (a ++ b) = lowerS a ++ lowerS b :=
  List.map_append lowerC a b

/-- An (ASCII-case-insensitive) prefix test is settled inside a long enough
first component. -/
lemma icasePrefix_append {pat a : Str} (b : Str) (h : pat.length ≤ a.length) :
    icasePrefix pat (a ++ b) = icasePrefix pat a := by
  unfold icasePrefix
  rw [lowerS_append]
  have hlp : (lowerS pat).length = pat.length := List.length_map _ _
  have hla : (lowerS a).length = a.length := List.length_map _ _
  by_cases hp : lowerS pat <+: lowerS a
  · rw [decide_eq_true hp, decide_eq_true (hp.trans (List.prefix_append _ _))]
  · rw [decide_eq_false hp]
    apply decide_eq_false
    intro hc
    apply hp
    rw [List.prefix_iff_eq_take] at hc
    have h0 : (lowerS pat).length - (lowerS a).length = 0 := by omega
    have hc' : lowerS pat = (lowerS a).take (lowerS pat).length := by
      conv_lhs => rw [hc]
      rw [List.take_append_eq_append_take, h0, List.take_zero, List.append_nil]
    have hpre := List.take_prefix (lowerS pat).length (lowerS a)
    rwa [← hc'] at hpre

lemma icasePrefix_head_ne {pat s : Str} {p c : Char} (hp : pat.head? = some p)
    (hc : s.head? = some c) (hne : lowerC c ≠ lowerC p) :
    icasePrefix pat s = false := by
  cases pat with
  | nil => simp at hp
  | cons q pat' =>
  cases s with
  | nil => simp at hc
  | cons d s' =>
  rw [List.head?_cons, Option.some_inj] at hp hc
  subst hp; subst hc
  apply decide_eq_false
  intro hpre
  rw [show lowerS (q :: pat') = lowerC q :: lowerS pat' from rfl,
    show lowerS (d :: s') = lowerC d :: lowerS s' from rfl] at hpre
  rcases hpre with ⟨t, ht⟩
  rw [List.cons_append] at ht
  exact hne (List.head_eq_of_cons_eq ht).symm

/-! ## `str.replace` facts -/

lemma replaceAllF_no_head {pat rep : Str} {p : Char} (hp : pat.head? = some p) :
    ∀ (f : Nat) (s : Str), p ∉ s → replaceAllF pat rep f s = s := by
  intro f
  induction f with
  | zero => intro s _; rfl
  | succ f ih =>
    intro s hs
    cases s with
    | nil => rfl
    | cons c cs =>
      rw [replaceAllF, if_neg, ih cs (fun hm => hs (List.mem_cons_of_mem _ hm))]
      rintro ⟨-, hpre⟩
      match pat, hp, hpre with
      | q :: pat', hp, hpre =>
        rw [List.head?_cons, Option.some_inj] at hp
        subst hp
        obtain ⟨t, ht⟩ := hpre
        rw [List.cons_append] at ht
        exact hs (by rw [← ht]; exact List.mem_cons_self _ _)

lemma replaceAll_no_head {pat rep s : Str} {p : Char} (hp : pat.head? = some p)
    (hs : p ∉ s) : replaceAll pat rep s = s :=
  replaceAllF_no_head hp s.length s hs

/-- When the pattern occurs exactly once, as a prefix, replacing it by the
empty string just strips it. -/
lemma replaceAll_prefix_once {pat rest : Str} {p : Char} (hp : pat.head? = some p)
    (hr : p ∉ rest) : replaceAll pat [] (pat ++ rest) = rest := by
  match pat, hp with
  | q :: pat', hp =>
    rw [List.head?_cons, Option.some_inj] at hp
    subst hp
    unfold replaceAll
    rw [show ((q :: pat') ++ rest).length = (pat'.length + rest.length) + 1 by
      simp [List.length_append]]
    rw [List.cons_append, replaceAllF]
    rw [if_pos ⟨by simp, by rw [← List.cons_append]; exact List.prefix_append _ _⟩]
    rw [List.nil_append, ← List.cons_append,
      show ((q :: pat') ++ rest).drop (q :: pat').length = rest from List.drop_left _ _]
    exact replaceAllF_no_head (List.head?_cons) _ rest hr

/-! ## The cleaned technical-metrics line -/

/-- The metrics line after the parser's `Metrics:` cleanup, written in
right-associated form. -/
def metValue (s : SummaryVals) : Str :=
  fmtComma s.TotalExceptions ++ (" exceptions | ".data ++ (fmtComma s.TotalRequests ++
    (" requests | ".data ++ (fmtComma s.TotalDependencies ++ (" dependencies ".data ++
      ('(' :: (fmtComma s.FailedDependencies ++ (" failed) | P95: ".data ++
        (natDigits s.P95ResponseTime ++ "ms".data)))))))))

lemma metricsLine_eq (s : SummaryVals) :
    metricsLine s = "Metrics:".data ++ (' ' :: metValue s) := by
  unfold metricsLine metValue
  simp only [List.cons_append, List.nil_append, List.append_assoc]

lemma lowerC_comma : lowerC ',' = ',' := by decide

lemma numChar_lowerC {c : Char} (h : numChar c = true) : lowerC c = c := by
  rcases Bool.or_eq_true_iff.mp h with hd | hc
  · exact lowerC_digit hd
  · rw [beq_iff_eq] at hc
    subst hc
    exact lowerC_comma

lemma not_mem_fmtComma {c : Char} (hc : numChar c = false) (n : Nat) :
    c ∉ fmtComma n := by
  intro hm
  rw [fmtComma_chars c hm] at hc
  exact Bool.noConfusion hc

lemma not_mem_natDigits {c : Char} (hc : c.isDigit = false) (n : Nat) :
    c ∉ natDigits n := by
  intro hm
  rw [natDigits_digits c hm] at hc
  exact Bool.noConfusion hc

lemma not_mem_lower_fmtComma {c : Char} (hc : numChar c = false) (n : Nat) :
    c ∉ lowerS (fmtComma n) := by
  intro hm
  obtain ⟨d, hd, hdc⟩ := List.mem_map.mp hm
  rw [numChar_lowerC (fmtComma_chars d hd)] at hdc
  subst hdc
  rw [fmtComma_chars d hd] at hc
  exact Bool.noConfusion hc

lemma not_mem_lower_natDigits {c : Char} (hc : numChar c = false) (n : Nat) :
    c ∉ lowerS (natDigits n) := by
  intro hm
  obtain ⟨d, hd, hdc⟩ := List.mem_map.mp hm
  rw [lowerC_digit (natDigits_digits d hd)] at hdc
  subst hdc
  unfold numChar at hc
  rw [Bool.or_eq_false_iff] at hc
  rw [natDigits_digits d hd] at hc
  exact Bool.noConfusion hc.1

lemma not_mem_metValue {c : Char} (hnum : numChar c = false)
    (h1 : c ∉ " exceptions | ".data) (h2 : c ∉ " requests | ".data)
    (h3 : c ∉ " dependencies ".data) (h4 : c ≠ '(')
    (h5 : c ∉ " failed) | P95: ".data) (h6 : c ∉ "ms".data) (s : SummaryVals) :
    c ∉ metValue s := by
  intro hm
  unfold metValue at hm
  simp only [List.mem_append] at hm
  rcases hm with h | h | h | h | h | h | h
  · exact not_mem_fmtComma hnum _ h
  · exact h1 h
  · exact not_mem_fmtComma hnum _ h
  · exact h2 h
  · exact not_mem_fmtComma hnum _ h
  · exact h3 h
  · rcases List.mem_cons.mp h with rfl | h
    · exact h4 rfl
    · simp only [List.mem_append] at h
      rcases h with h | h | h | h
      · exact not_mem_fmtComma hnum _ h
      · exact h5 h
      · exact not_mem_natDigits
          (by revert hnum; unfold numChar; cases hd : c.isDigit <;> simp [hd]) _ h
      · exact h6 h

lemma metValue_getLast? (s : SummaryVals) : (metValue s).getLast? = some 's' := by
  unfold metValue
  rw [show ('(' :: (fmtComma s.FailedDependencies ++ (" failed) | P95: ".data ++
      (natDigits s.P95ResponseTime ++ "ms".data))) : Str)
    = "(".data ++ (fmtComma s.FailedDependencies ++ (" failed) | P95: ".data ++
      (natDigits s.P95ResponseTime ++ "ms".data))) from rfl]
  simp only [List.getLast?_append, show ("ms".data : Str).getLast? = some 's' from rfl,
    Option.or_some]

lemma metValue_head_numChar (s : SummaryVals) :
    ∀ c, (metValue s).head? = some c → numChar c = true := by
  intro c hc
  unfold metValue at hc
  rw [List.head?_append_of_ne_nil _ (fmtComma_ne_nil _)] at hc
  exact fmtComma_chars c (mem_of_head? hc)

lemma pstrip_metValue (s : SummaryVals) : pstrip (metValue s) = metValue s :=
  pstrip_eq_self
    (fun c hc => numChar_not_ws (metValue_head_numChar s c hc))
    (fun c hc => by
      rw [metValue_getLast? s, Option.some_inj] at hc
      subst hc
      decide)

lemma metClean_metricsLine (s : SummaryVals) : metClean (metricsLine s) = metValue s := by
  have hstar : '*' ∉ metricsLine s := by
    rw [metricsLine_eq]
    intro hm
    rcases List.mem_append.mp hm with h | h
    · revert h; decide
    · rcases List.mem_cons.mp h with h' | h'
      · exact absurd h' (by decide)
      · exact not_mem_metValue (by decide) (by decide) (by decide) (by decide)
          (by decide) (by decide) (by decide) s h'
  unfold metClean
  rw [replaceAll_no_head (show ("**Metrics**:".data).head? = some '*' from rfl) hstar]
  rw [replaceAll_no_head (show ("**Metrics:**".data).head? = some '*' from rfl) hstar]
  rw [metricsLine_eq]
  rw [replaceAll_prefix_once (show ("Metrics:".data).head? = some 'M' from rfl)
    (by
      intro hm
      rcases List.mem_cons.mp hm with h' | h'
      · exact absurd h' (by decide)
      · exact not_mem_metValue (by decide) (by decide) (by decide) (by decide)
          (by decide) (by decide) (by decide) s h')]
  rw [show pstrip (' ' :: metValue s) = pstrip (metValue s) from ?_, pstrip_metValue]
  · unfold pstrip
    rw [List.dropWhile_cons_of_pos (by decide)]

lemma metricsClean2_metValue (s : SummaryVals) :
    metricsClean2 (metValue s) = metValue s := by
  unfold metricsClean2
  rw [replaceAll_no_head (show ("**Metrics:**".data).head? = some '*' from rfl)
    (not_mem_metValue (by decide) (by decide) (by decide) (by decide)
      (by decide) (by decide) (by decide) s)]
  exact pstrip_metValue s

/-! ## Classifying the composed lines in the metrics scan -/

lemma metValue_ne_nil (s : SummaryVals) : metValue s ≠ [] := by
  intro h
  have hl := metValue_getLast? s
  rw [h] at hl
  exact Option.noConfusion hl

lemma lowerS_cons (c : Char) (t : Str) : lowerS (c :: t) = lowerC c :: lowerS t := rfl

lemma not_mem_lower_metValue {c : Char} (hnum : numChar c = false)
    (h1 : c ∉ lowerS " exceptions | ".data) (h2 : c ∉ lowerS " requests | ".data)
    (h3 : c ∉ lowerS " dependencies ".data) (h4 : c ≠ '(')
    (h5 : c ∉ lowerS " failed) | P95: ".data) (h6 : c ∉ lowerS "ms".data)
    (s : SummaryVals) : c ∉ lowerS (metValue s) := by
  intro hm
  unfold metValue at hm
  simp only [lowerS_append, lowerS_cons, List.mem_append] at hm
  rcases hm with h | h | h | h | h | h | h
  · exact not_mem_lower_fmtComma hnum _ h
  · exact h1 h
  · exact not_mem_lower_fmtComma hnum _ h
  · exact h2 h
  · exact not_mem_lower_fmtComma hnum _ h
  · exact h3 h
  · rcases List.mem_cons.mp h with h' | h'
    · exact h4 (h'.trans (by decide))
    · simp only [List.mem_append] at h'
      rcases h' with h | h | h | h
      · exact not_mem_lower_fmtComma hnum _ h
      · exact h5 h
      · exact not_mem_lower_natDigits hnum _ h
      · exact h6 h

lemma not_mem_lower_metricsLine {c : Char} (hnum : numChar c = false)
    (h0 : c ∉ lowerS "Metrics:".data) (h0' : c ≠ ' ')
    (h1 : c ∉ lowerS " exceptions | ".data) (h2 : c ∉ lowerS " requests | ".data)
    (h3 : c ∉ lowerS " dependencies ".data) (h4 : c ≠ '(')
    (h5 : c ∉ lowerS " failed) | P95: ".data) (h6 : c ∉ lowerS "ms".data)
    (s : SummaryVals) : c ∉ lowerS (metricsLine s) := by
  intro hm
  rw [metricsLine_eq, lowerS_append, lowerS_cons] at hm
  rcases List.mem_append.mp hm with h | h
  · exact h0 h
  · rcases List.mem_cons.mp h with h' | h'
    · exact h0' (h'.trans (by decide))
    · exact not_mem_lower_metValue hnum h1 h2 h3 h4 h5 h6 s h'

lemma bizCond_metricsLine (s : SummaryVals) : bizCond (metricsLine s) = false := by
  have hb : 'b' ∉ lowerS (metricsLine s) :=
    not_mem_lower_metricsLine (by decide) (by decide) (by decide) (by decide) (by decide)
      (by decide) (by decide) (by decide) (by decide) s
  unfold bizCond
  rw [show containsB "business".data (lowerS (metricsLine s)) = false from
    decide_eq_false (not_infix_of_not_mem (show 'b' ∈ "business".data by decide) hb)]
  exact Bool.false_and _

lemma metKwCond_metricsLine (s : SummaryVals) : metKwCond (metricsLine s) = true := by
  have he : containsB "exception".data (lowerS (metricsLine s)) = true := by
    apply decide_eq_true
    unfold metricsLine
    simp only [lowerS, List.map_append, List.append_assoc]
    exact infix_append_right (infix_append_right (infix_append_left (by decide) _) _) _
  unfold metKwCond
  rw [he]
  simp

lemma hasDigit_metricsLine (s : SummaryVals) : hasDigit (metricsLine s) = true := by
  have hd := hasDigit_fmtComma s.TotalExceptions
  unfold hasDigit at hd
  unfold metricsLine hasDigit
  simp only [List.append_assoc, List.any_append]
  rw [hd]
  simp

lemma bizCond_businessLine (b : BusinessVals) : bizCond (businessLine b) = true := by
  have h1 : containsB "business".data (lowerS (businessLine b)) = true := by
    apply decide_eq_true
    unfold businessLine
    simp only [lowerS, List.map_append, List.append_assoc]
    exact infix_append_left (by decide) _
  have h2 : containsB "metric".data (lowerS (businessLine b)) = true := by
    apply decide_eq_true
    unfold businessLine
    simp only [lowerS, List.map_append, List.append_assoc]
    exact infix_append_left (by decide) _
  unfold bizCond
  rw [h1, h2]
  rfl

lemma hasDigit_businessLine (b : BusinessVals) : hasDigit (businessLine b) = true := by
  have hd := hasDigit_fmtComma b.offers
  unfold hasDigit at hd
  unfold businessLine hasDigit
  simp only [List.append_assoc, List.any_append]
  rw [hd]
  simp

/-! ## The metrics field of the parsed composed report -/

lemma scanMetrics_reportLines (s : SummaryVals) (b : BusinessVals)
    (groups : List IssueRec) (today : Str)
    (hbS : bizCond (statusLine s.TotalExceptions today) = false)
    (hmS : metKwCond (statusLine s.TotalExceptions today) = false) :
    (scanMetrics (reportLines s b groups today)).1 = metValue s := by
  have e1 : metricsStep ([], []) (statusLine s.TotalExceptions today) = ([], []) :=
    metricsStep_skip (by unfold bizQ; rw [hbS]; exact Bool.false_and _)
      (Or.inr (by rw [hmS]; exact Bool.false_and _))
  have e2 : metricsStep (([], []) : Str × Str) [] = ([], []) :=
    metricsStep_skip (by decide) (Or.inr (by decide))
  have e3 : metricsStep ([], []) (metricsLine s) = (metClean (metricsLine s), []) :=
    metricsStep_assign
      (by unfold bizQ; rw [bizCond_metricsLine s]; exact Bool.false_and _) rfl
      (by rw [metKwCond_metricsLine s, hasDigit_metricsLine s]; rfl)
  have e4 : metricsStep (metClean (metricsLine s), []) [] = (metClean (metricsLine s), []) :=
    metricsStep_skip (by decide) (Or.inr (by decide))
  have e5 : metricsStep (metClean (metricsLine s), []) (businessLine b) =
      (metClean (metricsLine s), bizClean (businessLine b)) :=
    metricsStep_biz
      (by unfold bizQ; rw [bizCond_businessLine b, hasDigit_businessLine b]; rfl)
  have e6 : metricsStep (metClean (metricsLine s), bizClean (businessLine b)) [] =
      (metClean (metricsLine s), bizClean (businessLine b)) :=
    metricsStep_skip (by decide) (Or.inr (by decide))
  have e7 : metricsStep (metClean (metricsLine s), bizClean (businessLine b))
      "Top 5 Problems:".data =
      (metClean (metricsLine s), bizClean (businessLine b)) :=
    metricsStep_skip (by decide) (Or.inr (by decide))
  unfold scanMetrics reportLines
  simp only [List.cons_append, List.nil_append, List.foldl_cons]
  rw [e1, e2, e3, e4, e5, e6, e7]
  rw [scanMetrics_fst]
  rw [if_neg (by rw [metClean_metricsLine s]; exact metValue_ne_nil s)]
  exact metClean_metricsLine s

/-! ## Per-field extraction: scanning the cleaned metrics line -/

lemma numUnitAt_cons (lit : Str) (c : Char) (cs : Str) :
    numUnitAt lit (c :: cs) =
      if numChar c then
        tryFrac lit ((c :: cs).takeWhile numChar)
          ((c :: cs).drop ((c :: cs).takeWhile numChar).length)
      else none := rfl

lemma numUnitAt_nonnum {lit s : Str} (h : ∀ c, s.head? = some c → numChar c = false) :
    numUnitAt lit s = none := by
  cases s with
  | nil => rfl
  | cons c cs => rw [numUnitAt_cons, if_neg (by simp [h c rfl])]

lemma findNumBefore_cons {lit : Str} (c : Char) (cs : Str) :
    findNumBefore lit (c :: cs) =
      match numUnitAt lit (c :: cs) with
      | some r => some r
      | none => findNumBefore lit cs := rfl

lemma findNumBefore_skip_nonum {lit : Str} :
    ∀ {x : Str} (rest : Str), (∀ c ∈ x, numChar c = false) →
    findNumBefore lit (x ++ rest) = findNumBefore lit rest := by
  intro x
  induction x with
  | nil => intro rest _; rfl
  | cons c x' ih =>
    intro rest h
    rw [List.cons_append, findNumBefore_cons,
      numUnitAt_nonnum (by
        intro d hd
        rw [List.head?_cons, Option.some_inj] at hd
        exact hd ▸ h c (List.mem_cons_self _ _))]
    exact ih rest (fun d hd => h d (List.mem_cons_of_mem _ hd))

lemma findNumBefore_skip_num {lit : Str} :
    ∀ {ds : Str} (rest : Str), (∀ c ∈ ds, numChar c = true) →
    (∀ c, rest.head? = some c → numChar c = false) →
    (∀ cap : Str, tryFrac lit cap rest = none) →
    findNumBefore lit (ds ++ rest) = findNumBefore lit rest := by
  intro ds
  induction ds with
  | nil => intro rest _ _ _; rfl
  | cons c ds' ih =>
    intro rest hds hr hf
    have hall : ∀ d ∈ c :: ds', numChar d = true := hds
    have htw : (c :: (ds' ++ rest)).takeWhile numChar = c :: ds' :=
      takeWhile_append_stop hall hr
    have hdr : (c :: (ds' ++ rest)).drop (c :: ds').length = rest :=
      List.drop_left (c :: ds') rest
    rw [List.cons_append, findNumBefore_cons]
    rw [show numUnitAt lit (c :: (ds' ++ rest)) = none from by
      rw [numUnitAt_cons, if_pos (hds c (List.mem_cons_self _ _)), htw, hdr]
      exact hf _]
    exact ih rest (fun d hd => hds d (List.mem_cons_of_mem _ hd)) hr hf

lemma findNumBefore_at {lit ds rest : Str} {v : Str} (hne : ds ≠ [])
    (hds : ∀ c ∈ ds, numChar c = true)
    (hr : ∀ c, rest.head? = some c → numChar c = false)
    (hf : tryFrac lit ds rest = some v) :
    findNumBefore lit (ds ++ rest) = some v := by
  cases ds with
  | nil => exact absurd rfl hne
  | cons c ds' =>
    have htw : (c :: (ds' ++ rest)).takeWhile numChar = c :: ds' :=
      takeWhile_append_stop hds hr
    have hdr : (c :: (ds' ++ rest)).drop (c :: ds').length = rest :=
      List.drop_left (c :: ds') rest
    rw [List.cons_append, findNumBefore_cons]
    rw [show numUnitAt lit (c :: (ds' ++ rest)) = some v from by
      rw [numUnitAt_cons, if_pos (hds c (List.mem_cons_self _ _)), htw, hdr]
      exact hf]

lemma tryFrac_space (lit cap u : Str) :
    tryFrac lit cap (' ' :: u) = tryLit lit cap (' ' :: u) := rfl

lemma tryLit_pos {lit cap t : Str} (h : icasePrefix lit (t.dropWhile wsB) = true) :
    tryLit lit cap t = some cap := by
  unfold tryLit
  simp [h]

lemma tryLit_neg {lit cap t : Str} (h : icasePrefix lit (t.dropWhile wsB) = false) :
    tryLit lit cap t = none := by
  unfold tryLit
  simp [h]

lemma dropWhile_spaced {b : Str} (X : Str) (hbne : b ≠ [])
    (hb : ∀ c, b.head? = some c → wsB c = false) :
    (' ' :: (b ++ X)).dropWhile wsB = b ++ X := by
  rw [List.dropWhile_cons_of_pos (by decide)]
  exact dropWhile_eq_self_of_head (by
    intro c hc
    rw [List.head?_append_of_ne_nil b hbne] at hc
    exact hb c hc)

lemma tryFrac_spaced_pos {lit : Str} (cap : Str) {b : Str} (X : Str) (hbne : b ≠ [])
    (hb : ∀ c, b.head? = some c → wsB c = false)
    (hic : icasePrefix lit (b ++ X) = true) :
    tryFrac lit cap (' ' :: (b ++ X)) = some cap := by
  rw [tryFrac_space]
  exact tryLit_pos (by rw [dropWhile_spaced X hbne hb]; exact hic)

lemma tryFrac_spaced_neg {lit : Str} (cap : Str) {b : Str} (X : Str) (hbne : b ≠ [])
    (hb : ∀ c, b.head? = some c → wsB c = false)
    (hic : icasePrefix lit (b ++ X) = false) :
    tryFrac lit cap (' ' :: (b ++ X)) = none := by
  rw [tryFrac_space]
  exact tryLit_neg (by rw [dropWhile_spaced X hbne hb]; exact hic)

lemma head_fixed {b : Str} {d : Char} (hd : b.head? = some d) (hw : wsB d = false) :
    ∀ c, b.head? = some c → wsB c = false := by
  intro c hc
  rw [hd, Option.some_inj] at hc
  subst hc
  exact hw

lemma head_sp_append {b : Str} (X : Str) (hbne : b ≠ []) :
    ∀ c, ((' ' :: b) ++ X).head? = some c → numChar c = false := by
  intro c hc
  rw [List.head?_append_of_ne_nil _ (by simp), List.head?_cons, Option.some_inj] at hc
  subst hc
  decide

/-- `re.search(r'([0-9,]+...)\s*exceptions?', ...)` on the cleaned metrics
line captures the formatted exception count. -/
lemma findNumBefore_exceptions (s : SummaryVals) :
    findNumBefore "exception".data (metValue s) = some (fmtComma s.TotalExceptions) := by
  unfold metValue
  apply findNumBefore_at (fmtComma_ne_nil _) fmtComma_chars
    (head_sp_append _ (by decide))
  rw [show (" exceptions | ".data ++ (fmtComma s.TotalRequests ++ (" requests | ".data ++
      (fmtComma s.TotalDependencies ++ (" dependencies ".data ++ ('(' ::
      (fmtComma s.FailedDependencies ++ (" failed) | P95: ".data ++
      (natDigits s.P95ResponseTime ++ "ms".data))))))))) =
    ' ' :: ("exceptions | ".data ++ (fmtComma s.TotalRequests ++ (" requests | ".data ++
      (fmtComma s.TotalDependencies ++ (" dependencies ".data ++ ('(' ::
      (fmtComma s.FailedDependencies ++ (" failed) | P95: ".data ++
      (natDigits s.P95ResponseTime ++ "ms".data))))))))) from rfl]
  apply tryFrac_spaced_pos _ _ (by decide)
    (head_fixed (show ("exceptions | ".data).head? = some 'e' from rfl) (by decide))
  rw [icasePrefix_append _ (by decide)]
  decide

lemma icasePrefix_append_head_ne {pat b : Str} (X : Str) {p c : Char}
    (hp : pat.head? = some p) (hb : b.head? = some c) (hbne : b ≠ [])
    (hne : lowerC c ≠ lowerC p) : icasePrefix pat (b ++ X) = false :=
  icasePrefix_head_ne hp (by rw [List.head?_append_of_ne_nil b hbne]; exact hb) hne

lemma skip_num_chunk {lit : Str} (n : Nat) {b : Str} (X : Str) (hbne : b ≠ [])
    (hb : ∀ c, b.head? = some c → wsB c = false)
    (hic : icasePrefix lit (b ++ X) = false) :
    findNumBefore lit (fmtComma n ++ (' ' :: (b ++ X))) =
      findNumBefore lit (' ' :: (b ++ X)) :=
  findNumBefore_skip_num _ fmtComma_chars
    (fun c hc => by rw [List.head?_cons, Option.some_inj] at hc; subst hc; decide)
    (fun cap => tryFrac_spaced_neg cap X hbne hb hic)

lemma at_num_chunk {lit : Str} (n : Nat) {b : Str} (X : Str) (hbne : b ≠ [])
    (hb : ∀ c, b.head? = some c → wsB c = false)
    (hic : icasePrefix lit (b ++ X) = true) :
    findNumBefore lit (fmtComma n ++ (' ' :: (b ++ X))) = some (fmtComma n) :=
  findNumBefore_at (fmtComma_ne_nil n) fmtComma_chars
    (fun c hc => by rw [List.head?_cons, Option.some_inj] at hc; subst hc; decide)
    (tryFrac_spaced_pos _ X hbne hb hic)

lemma skip_sp_chunk {lit : Str} {b : Str} (X : Str) (hall : ∀ c ∈ ' ' :: b, numChar c = false) :
    findNumBefore lit (' ' :: (b ++ X)) = findNumBefore lit X := by
  rw [show (' ' :: (b ++ X) : Str) = (' ' :: b) ++ X from rfl]
  exact findNumBefore_skip_nonum X hall

/-- The request-count capture on the cleaned metrics line. -/
lemma findNumBefore_requests (s : SummaryVals) :
    findNumBefore "request".data (metValue s) = some (fmtComma s.TotalRequests) := by
  unfold metValue
  rw [show (" exceptions | ".data ++ (fmtComma s.TotalRequests ++ (" requests | ".data ++
      (fmtComma s.TotalDependencies ++ (" dependencies ".data ++ ('(' ::
      (fmtComma s.FailedDependencies ++ (" failed) | P95: ".data ++
      (natDigits s.P95ResponseTime ++ "ms".data))))))))) =
    ' ' :: ("exceptions | ".data ++ (fmtComma s.TotalRequests ++ (" requests | ".data ++
      (fmtComma s.TotalDependencies ++ (" dependencies ".data ++ ('(' ::
      (fmtComma s.FailedDependencies ++ (" failed) | P95: ".data ++
      (natDigits s.P95ResponseTime ++ "ms".data))))))))) from rfl]
  rw [skip_num_chunk s.TotalExceptions _ (by decide)
    (head_fixed (show ("exceptions | ".data).head? = some 'e' from rfl) (by decide))
    (icasePrefix_append_head_ne _ (show ("request".data).head? = some 'r' from rfl)
      (show ("exceptions | ".data).head? = some 'e' from rfl) (by decide) (by decide))]
  rw [skip_sp_chunk _ (by decide)]
  rw [show (" requests | ".data ++ (fmtComma s.TotalDependencies ++ (" dependencies ".data ++
      ('(' :: (fmtComma s.FailedDependencies ++ (" failed) | P95: ".data ++
      (natDigits s.P95ResponseTime ++ "ms".data))))))) =
    ' ' :: ("requests | ".data ++ (fmtComma s.TotalDependencies ++ (" dependencies ".data ++
      ('(' :: (fmtComma s.FailedDependencies ++ (" failed) | P95: ".data ++
      (natDigits s.P95ResponseTime ++ "ms".data))))))) from rfl]
  rw [at_num_chunk s.TotalRequests _ (by decide)
    (head_fixed (show ("requests | ".data).head? = some 'r' from rfl) (by decide))
    (by rw [icasePrefix_append _ (by decide)]; decide)]

/-- The dependency-count capture on the cleaned metrics line. -/
lemma findNumBefore_dependencies (s : SummaryVals) :
    findNumBefore "dependencies".data (metValue s) =
      some (fmtComma s.TotalDependencies) := by
  unfold metValue
  rw [show (" exceptions | ".data ++ (fmtComma s.TotalRequests ++ (" requests | ".data ++
      (fmtComma s.TotalDependencies ++ (" dependencies ".data ++ ('(' ::
      (fmtComma s.FailedDependencies ++ (" failed) | P95: ".data ++
      (natDigits s.P95ResponseTime ++ "ms".data))))))))) =
    ' ' :: ("exceptions | ".data ++ (fmtComma s.TotalRequests ++ (" requests | ".data ++
      (fmtComma s.TotalDependencies ++ (" dependencies ".data ++ ('(' ::
      (fmtComma s.FailedDependencies ++ (" failed) | P95: ".data ++
      (natDigits s.P95ResponseTime ++ "ms".data))))))))) from rfl]
  rw [skip_num_chunk s.TotalExceptions _ (by decide)
    (head_fixed (show ("exceptions | ".data).head? = some 'e' from rfl) (by decide))
    (icasePrefix_append_head_ne _ (show ("dependencies".data).head? = some 'd' from rfl)
      (show ("exceptions | ".data).head? = some 'e' from rfl) (by decide) (by decide))]
  rw [skip_sp_chunk _ (by decide)]
  rw [show (" requests | ".data ++ (fmtComma s.TotalDependencies ++ (" dependencies ".data ++
      ('(' :: (fmtComma s.FailedDependencies ++ (" failed) | P95: ".data ++
      (natDigits s.P95ResponseTime ++ "ms".data))))))) =
    ' ' :: ("requests | ".data ++ (fmtComma s.TotalDependencies ++ (" dependencies ".data ++
      ('(' :: (fmtComma s.FailedDependencies ++ (" failed) | P95: ".data ++
      (natDigits s.P95ResponseTime ++ "ms".data))))))) from rfl]
  rw [skip_num_chunk s.TotalRequests _ (by decide)
    (head_fixed (show ("requests | ".data).head? = some 'r' from rfl) (by decide))
    (icasePrefix_append_head_ne _ (show ("dependencies".data).head? = some 'd' from rfl)
      (show ("requests | ".data).head? = some 'r' from rfl) (by decide) (by decide))]
  rw [skip_sp_chunk _ (by decide)]
  rw [show (" dependencies ".data ++ ('(' :: (fmtComma s.FailedDependencies ++
      (" failed) | P95: ".data ++ (natDigits s.P95ResponseTime ++ "ms".data))))) =
    ' ' :: ("dependencies ".data ++ ('(' :: (fmtComma s.FailedDependencies ++
      (" failed) | P95: ".data ++ (natDigits s.P95ResponseTime ++ "ms".data))))) from rfl]
  rw [at_num_chunk s.TotalDependencies _ (by decide)
    (head_fixed (show ("dependencies ".data).head? = some 'd' from rfl) (by decide))
    (by rw [icasePrefix_append _ (by decide)]; decide)]

/-! ## The failed-dependency capture -/

lemma findFailed_cons (c : Char) (cs : Str) :
    findFailed (c :: cs) =
      match failedAt (c :: cs) with
      | some r => some r
      | none => findFailed cs := rfl

lemma failedAt_nonparen {c : Char} {cs : Str} (h : c ≠ '(') :
    failedAt (c :: cs) = none := by
  unfold failedAt
  split
  · rename_i t heq
    exact absurd (List.head_eq_of_cons_eq heq) h
  · rfl

lemma findFailed_skip {x : Str} (rest : Str) (h : '(' ∉ x) :
    findFailed (x ++ rest) = findFailed rest := by
  induction x with
  | nil => rfl
  | cons c x' ih =>
    rw [List.cons_append, findFailed_cons,
      failedAt_nonparen (fun he => h (he ▸ List.mem_cons_self c x'))]
    exact ih (fun hm => h (List.mem_cons_of_mem _ hm))

lemma head_fixed_num {b : Str} {d : Char} (hd : b.head? = some d)
    (hn : numChar d = false) : ∀ c, b.head? = some c → numChar c = false := by
  intro c hc
  rw [hd, Option.some_inj] at hc
  subst hc
  exact hn

lemma failedAt_paren_cons (c : Char) (Y : Str) :
    failedAt ('(' :: c :: Y) =
      if numChar c then
        tryFrac "failed)".data ((c :: Y).takeWhile numChar)
          ((c :: Y).drop ((c :: Y).takeWhile numChar).length)
      else none := rfl

lemma findFailed_metValue (s : SummaryVals) :
    findFailed (metValue s) = some (fmtComma s.FailedDependencies) := by
  obtain ⟨c, cs, hcc⟩ : ∃ c cs, fmtComma s.FailedDependencies = c :: cs := by
    cases hf : fmtComma s.FailedDependencies with
    | nil => exact absurd hf (fmtComma_ne_nil _)
    | cons c cs => exact ⟨c, cs, rfl⟩
  have hall : ∀ d ∈ c :: cs, numChar d = true := by
    intro d hd
    exact fmtComma_chars d (by rw [hcc]; exact hd)
  unfold metValue
  rw [findFailed_skip _ (not_mem_fmtComma (by decide) _)]
  rw [findFailed_skip _ (by decide)]
  rw [findFailed_skip _ (not_mem_fmtComma (by decide) _)]
  rw [findFailed_skip _ (by decide)]
  rw [findFailed_skip _ (not_mem_fmtComma (by decide) _)]
  rw [findFailed_skip _ (by decide)]
  rw [findFailed_cons, hcc]
  rw [show ((c :: cs) ++ (" failed) | P95: ".data ++ (natDigits s.P95ResponseTime ++
      "ms".data)) : Str) = c :: (cs ++ (" failed) | P95: ".data ++
      (natDigits s.P95ResponseTime ++ "ms".data))) from rfl]
  rw [failedAt_paren_cons]
  rw [if_pos (hall c (List.mem_cons_self _ _))]
  rw [show ((c :: (cs ++ (" failed) | P95: ".data ++ (natDigits s.P95ResponseTime ++
      "ms".data)))).takeWhile numChar) = c :: cs from
    takeWhile_append_stop hall (head_fixed_num (show (" failed) | P95: ".data ++
      (natDigits s.P95ResponseTime ++ "ms".data)).head? = some ' ' from rfl) (by decide))]
  rw [show ((c :: (cs ++ (" failed) | P95: ".data ++ (natDigits s.P95ResponseTime ++
      "ms".data)))).drop (c :: cs).length) = " failed) | P95: ".data ++
      (natDigits s.P95ResponseTime ++ "ms".data) from
    List.drop_left (c :: cs) _]
  rw [show (" failed) | P95: ".data ++ (natDigits s.P95ResponseTime ++ "ms".data)) =
    ' ' :: ("failed) | P95: ".data ++ (natDigits s.P95ResponseTime ++ "ms".data)) from rfl]
  rw [tryFrac_spaced_pos _ _ (by decide)
    (head_fixed (show ("failed) | P95: ".data).head? = some 'f' from rfl) (by decide))
    (by rw [icasePrefix_append _ (by decide)]; decide)]

/-! ## The P95 capture -/

lemma findP95_cons (c : Char) (cs : Str) :
    findP95 (c :: cs) =
      match p95At (c :: cs) with
      | some r => some r
      | none => findP95 cs := rfl

lemma p95At_neg {s : Str} (h : icasePrefix "p95:".data s = false) : p95At s = none := by
  unfold p95At
  rw [h]
  rfl

lemma p95At_head_ne {c : Char} (cs : Str) (h : lowerC c ≠ 'p') : p95At (c :: cs) = none :=
  p95At_neg (icasePrefix_head_ne (show ("p95:".data).head? = some 'p' from rfl)
    (List.head?_cons) h)

lemma findP95_cons_none {c : Char} {cs : Str} (h : p95At (c :: cs) = none) :
    findP95 (c :: cs) = findP95 cs := by
  rw [findP95_cons, h]

lemma findP95_skip_nop {x : Str} (rest : Str) (h : ∀ c ∈ x, lowerC c ≠ 'p') :
    findP95 (x ++ rest) = findP95 rest := by
  induction x with
  | nil => rfl
  | cons c x' ih =>
    rw [List.cons_append, findP95_cons,
      p95At_head_ne _ (h c (List.mem_cons_self c x'))]
    exact ih (fun d hd => h d (List.mem_cons_of_mem _ hd))

lemma lower_ne_p_fmtComma (n : Nat) : ∀ c ∈ fmtComma n, lowerC c ≠ 'p' := by
  intro c hc
  rw [numChar_lowerC (fmtComma_chars c hc)]
  intro he
  rw [he] at hc
  exact not_mem_fmtComma (by decide) n hc

lemma findP95_skip_p_chunk {b : Str} (rest : Str)
    (hic : icasePrefix "p95:".data ('p' :: (b ++ rest)) = false)
    (hb : ∀ c ∈ b, lowerC c ≠ 'p') :
    findP95 ('p' :: (b ++ rest)) = findP95 rest := by
  rw [findP95_cons, p95At_neg hic]
  exact findP95_skip_nop rest hb

/-- The body of `p95At` past its prefix test. -/
def p95Body (t : Str) : Option Str :=
  match t with
  | c :: _ =>
    if numChar c then
      let num := t.takeWhile numChar
      match t.drop num.length with
      | '.' :: t' =>
        let ds := t'.takeWhile Char.isDigit
        if ds ≠ [] ∧ icasePrefix "ms".data (t'.drop ds.length) then some (num ++ '.' :: ds)
        else none
      | rest => if icasePrefix "ms".data rest then some num else none
    else none
  | [] => none

lemma p95At_eq (s : Str) :
    p95At s =
      if icasePrefix "p95:".data s then p95Body ((s.drop 4).dropWhile wsB) else none := rfl

lemma findP95_metValue (s : SummaryVals) :
    findP95 (metValue s) = some (natDigits s.P95ResponseTime) := by
  obtain ⟨d, ds, hnd⟩ : ∃ d ds, natDigits s.P95ResponseTime = d :: ds := by
    cases hf : natDigits s.P95ResponseTime with
    | nil => exact absurd hf (natDigits_ne_nil _)
    | cons d ds => exact ⟨d, ds, rfl⟩
  have hdall : ∀ c ∈ d :: ds, numChar c = true := by
    intro c hc
    unfold numChar
    rw [natDigits_digits c (by rw [hnd]; exact hc)]
    rfl
  unfold metValue
  rw [findP95_skip_nop _ (lower_ne_p_fmtComma _)]
  rw [show (" exceptions | ".data ++ (fmtComma s.TotalRequests ++ (" requests | ".data ++
      (fmtComma s.TotalDependencies ++ (" dependencies ".data ++ ('(' ::
      (fmtComma s.FailedDependencies ++ (" failed) | P95: ".data ++
      (natDigits s.P95ResponseTime ++ "ms".data))))))))) =
    " exce".data ++ ('p' :: ("tions | ".data ++ (fmtComma s.TotalRequests ++
      (" requests | ".data ++ (fmtComma s.TotalDependencies ++ (" dependencies ".data ++
      ('(' :: (fmtComma s.FailedDependencies ++ (" failed) | P95: ".data ++
      (natDigits s.P95ResponseTime ++ "ms".data)))))))))) from rfl]
  rw [findP95_skip_nop _ (by decide)]
  rw [findP95_skip_p_chunk _
    (by
      rw [show ('p' :: ("tions | ".data ++ (fmtComma s.TotalRequests ++
        (" requests | ".data ++ (fmtComma s.TotalDependencies ++ (" dependencies ".data ++
        ('(' :: (fmtComma s.FailedDependencies ++ (" failed) | P95: ".data ++
        (natDigits s.P95ResponseTime ++ "ms".data))))))))) : Str) =
        "ptions | ".data ++ (fmtComma s.TotalRequests ++
        (" requests | ".data ++ (fmtComma s.TotalDependencies ++ (" dependencies ".data ++
        ('(' :: (fmtComma s.FailedDependencies ++ (" failed) | P95: ".data ++
        (natDigits s.P95ResponseTime ++ "ms".data)))))))) from rfl]
      rw [icasePrefix_append _ (by decide)]
      decide)
    (by decide)]
  rw [findP95_skip_nop _ (lower_ne_p_fmtComma _)]
  rw [findP95_skip_nop _ (by decide)]
  rw [findP95_skip_nop _ (lower_ne_p_fmtComma _)]
  rw [show (" dependencies ".data ++ ('(' :: (fmtComma s.FailedDependencies ++
      (" failed) | P95: ".data ++ (natDigits s.P95ResponseTime ++ "ms".data))))) =
    " de".data ++ ('p' :: ("endencies ".data ++ ('(' ::
      (fmtComma s.FailedDependencies ++ (" failed) | P95: ".data ++
      (natDigits s.P95ResponseTime ++ "ms".data)))))) from rfl]
  rw [findP95_skip_nop _ (by decide)]
  rw [findP95_skip_p_chunk _
    (by
      rw [show ('p' :: ("endencies ".data ++ ('(' :: (fmtComma s.FailedDependencies ++
        (" failed) | P95: ".data ++ (natDigits s.P95ResponseTime ++ "ms".data))))) : Str) =
        "pendencies ".data ++ ('(' :: (fmtComma s.FailedDependencies ++
        (" failed) | P95: ".data ++ (natDigits s.P95ResponseTime ++ "ms".data)))) from rfl]
      rw [icasePrefix_append _ (by decide)]
      decide)
    (by decide)]
  rw [findP95_cons_none (p95At_head_ne _ (by decide))]
  rw [findP95_skip_nop _ (lower_ne_p_fmtComma _)]
  rw [show (" failed) | P95: ".data ++ (natDigits s.P95ResponseTime ++ "ms".data)) =
    " failed) | ".data ++ ("P95: ".data ++ (natDigits s.P95ResponseTime ++ "ms".data))
    from rfl]
  rw [findP95_skip_nop _ (by decide)]
  have hic : icasePrefix "p95:".data
      ("P95: ".data ++ (natDigits s.P95ResponseTime ++ "ms".data)) = true := by
    rw [icasePrefix_append _ (by decide)]
    decide
  have ht : ((("P95: ".data ++ (natDigits s.P95ResponseTime ++ "ms".data)).drop 4).dropWhile
      wsB) = d :: (ds ++ "ms".data) := by
    rw [List.drop_append_eq_append_drop]
    rw [show ("P95: ".data.drop 4 : Str) = [' '] from rfl]
    rw [show (4 - "P95: ".data.length : Nat) = 0 from rfl, List.drop_zero]
    rw [show (([' '] ++ (natDigits s.P95ResponseTime ++ "ms".data)) : Str) =
      ' ' :: (natDigits s.P95ResponseTime ++ "ms".data) from rfl]
    rw [List.dropWhile_cons_of_pos (by decide)]
    rw [hnd, List.cons_append]
    exact List.dropWhile_cons_of_neg (by
      simp [numChar_not_ws (hdall d (List.mem_cons_self _ _))])
  rw [show ("P95: ".data ++ (natDigits s.P95ResponseTime ++ "ms".data) : Str) =
    'P' :: ("95: ".data ++ (natDigits s.P95ResponseTime ++ "ms".data)) from rfl]
  rw [findP95_cons]
  rw [show ('P' :: ("95: ".data ++ (natDigits s.P95ResponseTime ++ "ms".data)) : Str) =
    "P95: ".data ++ (natDigits s.P95ResponseTime ++ "ms".data) from rfl]
  rw [show p95At ("P95: ".data ++ (natDigits s.P95ResponseTime ++ "ms".data)) =
    p95Body (d :: (ds ++ "ms".data)) from by rw [p95At_eq, hic, if_pos rfl, ht]]
  rw [show p95Body (d :: (ds ++ "ms".data)) = some (d :: ds) from ?_]
  · rw [hnd]
  · unfold p95Body
    dsimp only
    rw [if_pos (hdall d (List.mem_cons_self _ _))]
    rw [show ((d :: (ds ++ "ms".data)).takeWhile numChar : Str) = d :: ds from
      takeWhile_append_stop hdall (head_fixed_num (show ("ms".data).head? = some 'm' from rfl)
        (by decide))]
    rw [show ((d :: (ds ++ "ms".data)).drop (d :: ds).length : Str) = "ms".data from
      List.drop_left (d :: ds) _]
    show (if icasePrefix "ms".data ("ms".data) = true then some (d :: ds) else none) =
      some (d :: ds)
    rw [show icasePrefix "ms".data ("ms".data) = true from by decide, if_pos rfl]

/-! ## The issue lines under the issue scan -/

/-- A well-behaved issue record: its composed description is nonempty, does
not begin with whitespace or a dash, does not end with whitespace and
contains no newline (true of every realistic exception group). -/
def tameIssue (r : IssueRec) : Bool :=
  match issueDesc r with
  | [] => false
  | c :: _ =>
    !wsB c && !(c == '-') && !(c == '–') &&
    (match (issueDesc r).getLast? with
     | some e => !wsB e
     | none => false) &&
    !(issueDesc r).contains '\n'

lemma tameIssue_spec {r : IssueRec} (h : tameIssue r = true) :
    ∃ c u, issueDesc r = c :: u ∧ wsB c = false ∧ c ≠ '-' ∧ c ≠ '–' ∧
      (∀ e, (issueDesc r).getLast? = some e → wsB e = false) ∧ '\n' ∉ issueDesc r := by
  unfold tameIssue at h
  cases hdesc : issueDesc r with
  | nil => rw [hdesc] at h; exact Bool.noConfusion h
  | cons c u =>
    rw [hdesc] at h
    simp only [Bool.and_eq_true, Bool.not_eq_true'] at h
    obtain ⟨⟨⟨⟨hw, hd1⟩, hd2⟩, hlast⟩, hcont⟩ := h
    refine ⟨c, u, rfl, hw, by simpa using hd1, by simpa using hd2, ?_, ?_⟩
    · intro e hel
      rw [hel] at hlast
      simpa using hlast
    · simpa using hcont

lemma takeWhile_nil_of_head {p : Char → Bool} {s : Str}
    (h : ∀ c, s.head? = some c → p c = false) : s.takeWhile p = [] := by
  cases s with
  | nil => rfl
  | cons c cs => exact List.takeWhile_cons_of_neg (by simp [h c rfl])

lemma head_fixed_p {p : Char → Bool} {b : Str} {d : Char} (hd : b.head? = some d)
    (hp : p d = false) : ∀ c, b.head? = some c → p c = false := by
  intro c hc
  rw [hd, Option.some_inj] at hc
  subst hc
  exact hp

lemma match1_nodigit {s : Str} (h : s.takeWhile Char.isDigit = []) : match1 s = none := by
  unfold match1
  dsimp only
  rw [h, if_pos rfl]

lemma match2_nodigit {s : Str} (h : s.takeWhile Char.isDigit = []) : match2 s = none := by
  unfold match2
  dsimp only
  rw [h, if_pos rfl]

lemma match3_nodigit {s : Str} (h : s.takeWhile Char.isDigit = []) : match3 s = none := by
  unfold match3
  dsimp only
  rw [h, if_pos rfl]

lemma tryMatches_nodigit {s : Str}
    (h : ∀ c, s.head? = some c → c.isDigit = false) : tryMatches s = none := by
  have ht := takeWhile_nil_of_head h
  unfold tryMatches
  rw [match1_nodigit ht]
  dsimp only
  rw [match2_nodigit ht]
  dsimp only
  exact match3_nodigit ht

lemma descTail_sp {c : Char} {u : Str} (hc : wsB c = false) (h1 : c ≠ '-') (h2 : c ≠ '–') :
    descTail (' ' :: c :: u) = some (c :: u) := by
  unfold descTail
  rw [if_neg (by simp)]
  rw [show ((' ' :: c :: u : Str).takeWhile wsB) = [' '] from by
    rw [List.takeWhile_cons_of_pos (by decide), List.takeWhile_cons_of_neg (by simp [hc])]]
  rw [show ((' ' :: c :: u : Str).drop ([' '] : Str).length) = c :: u from rfl]
  dsimp only
  rw [if_neg (by rintro (h | h); exact h1 h; exact h2 h)]

/-- The tail of `match1` after the rank digits and the dot. -/
def m1c (r3 : Str) : Option (Str × Str) :=
  let num := r3.takeWhile numChar
  if num = [] then none else
  match r3.drop num.length with
  | '×' :: '*' :: '*' :: r5 => (descTail r5).map (fun d => (num, d))
  | '*' :: '*' :: r5 => (descTail r5).map (fun d => (num, d))
  | _ => none

lemma match1_digits_dot (ds X : Str) (hne : ds ≠ [])
    (hdig : ∀ c ∈ ds, Char.isDigit c = true) :
    match1 (ds ++ ('.' :: ' ' :: '*' :: '*' :: X)) = m1c X := by
  unfold match1
  dsimp only
  rw [takeWhile_append_stop hdig (head_fixed_p (List.head?_cons) (by decide))]
  rw [if_neg hne, List.drop_left ds _]
  rfl

lemma match1_issueLine (k : Nat) {r : IssueRec} {c : Char} {u : Str}
    (hdesc : issueDesc r = c :: u) (hc : wsB c = false) (h1 : c ≠ '-') (h2 : c ≠ '–') :
    match1 (issueLine k r) = some (fmtComma r.Count, issueDesc r) := by
  rw [show issueLine k r = natDigits k ++ ('.' :: ' ' :: '*' :: '*' ::
    (fmtComma r.Count ++ ('×' :: '*' :: '*' :: ' ' :: issueDesc r))) from rfl]
  rw [match1_digits_dot _ _ (natDigits_ne_nil k) natDigits_digits]
  unfold m1c
  dsimp only
  rw [show ((fmtComma r.Count ++ ('×' :: '*' :: '*' :: ' ' :: issueDesc r)).takeWhile
      numChar) = fmtComma r.Count from
    takeWhile_append_stop fmtComma_chars
      (head_fixed_num (show (('×' :: '*' :: '*' :: ' ' :: issueDesc r : Str)).head? =
        some '×' from rfl) (by decide))]
  rw [if_neg (fmtComma_ne_nil r.Count)]
  rw [show ((fmtComma r.Count ++ ('×' :: '*' :: '*' :: ' ' :: issueDesc r)).drop
      (fmtComma r.Count).length) = '×' :: '*' :: '*' :: ' ' :: issueDesc r from
    List.drop_left _ _]
  rw [hdesc]
  show (descTail (' ' :: c :: u)).map (fun d => (fmtComma r.Count, d)) =
    some (fmtComma r.Count, c :: u)
  rw [descTail_sp hc h1 h2]
  rfl

lemma tryMatches_issueLine (k : Nat) {r : IssueRec} {c : Char} {u : Str}
    (hdesc : issueDesc r = c :: u) (hc : wsB c = false) (h1 : c ≠ '-') (h2 : c ≠ '–') :
    tryMatches (issueLine k r) = some (fmtComma r.Count, issueDesc r) := by
  unfold tryMatches
  rw [match1_issueLine k hdesc hc h1 h2]

lemma issueLine_getLast? {k : Nat} {r : IssueRec} (hne : issueDesc r ≠ []) :
    (issueLine k r).getLast? = (issueDesc r).getLast? := by
  obtain ⟨e, he⟩ : ∃ e, (issueDesc r).getLast? = some e := by
    cases hd : issueDesc r with
    | nil => exact absurd hd hne
    | cons x xs =>
      exact ⟨(x :: xs).getLast (List.cons_ne_nil x xs),
        List.getLast?_eq_getLast_of_ne_nil (List.cons_ne_nil x xs)⟩
  rw [show issueLine k r = natDigits k ++ (". **".data ++ (fmtComma r.Count ++
    ("×** ".data ++ issueDesc r))) from rfl]
  simp only [List.getLast?_append, he, Option.or_some]

lemma issueLine_head {k : Nat} {r : IssueRec} :
    ∀ c, (issueLine k r).head? = some c → wsB c = false := by
  intro c hc
  rw [show issueLine k r = natDigits k ++ ('.' :: ' ' :: '*' :: '*' ::
    (fmtComma r.Count ++ ('×' :: '*' :: '*' :: ' ' :: issueDesc r))) from rfl] at hc
  rw [List.head?_append_of_ne_nil _ (natDigits_ne_nil k)] at hc
  exact digit_not_ws (natDigits_digits c (mem_of_head? hc))

lemma pstrip_issueLine {k : Nat} {r : IssueRec} (hne : issueDesc r ≠ [])
    (hlast : ∀ e, (issueDesc r).getLast? = some e → wsB e = false) :
    pstrip (issueLine k r) = issueLine k r :=
  pstrip_eq_self issueLine_head
    (fun e hel => hlast e (by rw [← issueLine_getLast? hne]; exact hel))

/-! ## Stepping the issue scan -/

lemma issuesScan_cons_eq (l : Str) (ls : List Str) (inIss : Bool)
    (acc : List (Nat × Str)) :
    issuesScan (l :: ls) inIss acc =
      if headerCond l then issuesScan ls true acc
      else if inIss then
        match tryMatches (pstrip l) with
        | some (num, d) =>
          issuesScan ls inIss (acc ++ [(digitsToNat (stripCommas num), pstrip d)])
        | none =>
          if pstrip l ≠ [] ∧ startsRank (pstrip l) = false then
            (if acc ≠ [] then acc else issuesScan ls inIss acc)
          else issuesScan ls inIss acc
      else issuesScan ls inIss acc := rfl

lemma issuesScan_skip_noheader {l : Str} (ls : List Str) (acc : List (Nat × Str))
    (hh : headerCond l = false) :
    issuesScan (l :: ls) false acc = issuesScan ls false acc := by
  rw [issuesScan_cons_eq, hh, if_neg Bool.false_ne_true, if_neg Bool.false_ne_true]

lemma issuesScan_header {l : Str} (ls : List Str) (inIss : Bool) (acc : List (Nat × Str))
    (hh : headerCond l = true) :
    issuesScan (l :: ls) inIss acc = issuesScan ls true acc := by
  rw [issuesScan_cons_eq, hh, if_pos rfl]

lemma issuesScan_match {l : Str} (ls : List Str) (acc : List (Nat × Str)) {v d : Str}
    (hh : headerCond l = false) (hm : tryMatches (pstrip l) = some (v, d)) :
    issuesScan (l :: ls) true acc =
      issuesScan ls true (acc ++ [(digitsToNat (stripCommas v), pstrip d)]) := by
  rw [issuesScan_cons_eq, hh, if_neg Bool.false_ne_true, if_pos rfl, hm]

lemma issuesScan_blank (ls : List Str) (acc : List (Nat × Str)) :
    issuesScan ([] :: ls) true acc = issuesScan ls true acc := by
  rw [issuesScan_cons_eq, show headerCond [] = false from by decide,
    if_neg Bool.false_ne_true, if_pos rfl,
    show tryMatches (pstrip []) = none from by decide]
  rw [if_neg (by simp [pstrip])]

lemma issuesScan_last {l : Str} (inIss : Bool) (acc : List (Nat × Str))
    (hm : tryMatches (pstrip l) = none) :
    issuesScan [l] inIss acc = acc := by
  rw [issuesScan_cons_eq]
  by_cases hh : headerCond l = true
  · rw [hh, if_pos rfl]
    rfl
  · rw [Bool.not_eq_true] at hh
    rw [hh, if_neg Bool.false_ne_true]
    cases inIss with
    | false => rfl
    | true =>
      rw [if_pos rfl, hm]
      show (if pstrip l ≠ [] ∧ startsRank (pstrip l) = false then
        (if acc ≠ [] then acc else issuesScan [] true acc)
        else issuesScan [] true acc) = acc
      split
      · split <;> rfl
      · rfl

lemma actionLine_head (tops : List IssueRec) (te : Nat) :
    ∀ c, (actionLine tops te).head? = some c → wsB c = false ∧ c.isDigit = false := by
  intro c hc
  cases tops with
  | nil =>
    rw [show (actionLine [] te).head? = some '✅' from rfl, Option.some_inj] at hc
    subst hc
    exact ⟨by decide, by decide⟩
  | cons t ts =>
    rw [show actionLine (t :: ts) te = '🚨' :: (" Action Required: Investigate ".data ++
      topOperation t.problemId ++ " null-safety - accounts for ".data ++
      natDigits (if te > 0 then t.Count * 100 / te else 0) ++ "% of exceptions".data)
      from rfl, List.head?_cons, Option.some_inj] at hc
    subst hc
    exact ⟨by decide, by decide⟩

lemma pstrip_actionLine (tops : List IssueRec) (te : Nat) :
    pstrip (actionLine tops te) = actionLine tops te :=
  pstrip_eq_self (fun c hc => (actionLine_head tops te c hc).1) actionLine_last

lemma tryMatches_actionLine (tops : List IssueRec) (te : Nat) :
    tryMatches (pstrip (actionLine tops te)) = none := by
  rw [pstrip_actionLine]
  exact tryMatches_nodigit (fun c hc => (actionLine_head tops te c hc).2)

lemma issuesScan_issueLines {act : Str} (hact : tryMatches (pstrip act) = none) :
    ∀ (rs : List IssueRec) (rank : Nat) (acc : List (Nat × Str)),
    (∀ r ∈ rs, tameIssue r = true) →
    (∀ l ∈ issueLinesList rank rs, headerCond l = false) →
    issuesScan (issueLinesList rank rs ++ [[], act]) true acc =
      acc ++ rs.map (fun r => (r.Count, issueDesc r)) := by
  intro rs
  induction rs with
  | nil =>
    intro rank acc _ _
    rw [show issueLinesList rank [] ++ [[], act] = ([] : Str) :: [act] from rfl]
    rw [issuesScan_blank, issuesScan_last _ _ hact]
    simp
  | cons r rs' ih =>
    intro rank acc htame hhdr
    obtain ⟨c, u, hdesc, hc, h1, h2, hlast, -⟩ :=
      tameIssue_spec (htame r (List.mem_cons_self _ _))
    have hne : issueDesc r ≠ [] := by rw [hdesc]; simp
    rw [show issueLinesList rank (r :: rs') =
      issueLine rank r :: issueLinesList (rank + 1) rs' from rfl, List.cons_append]
    rw [issuesScan_match _ _
      (hhdr _ (by
        rw [show issueLinesList rank (r :: rs') =
          issueLine rank r :: issueLinesList (rank + 1) rs' from rfl]
        exact List.mem_cons_self _ _))
      (by rw [pstrip_issueLine hne hlast]; exact tryMatches_issueLine rank hdesc hc h1 h2)]
    rw [stripCommas_fmtComma, digitsToNat_natDigits,
      pstrip_eq_self (fun e he => by
        rw [hdesc] at he
        rw [List.head?_cons, Option.some_inj] at he
        subst he
        exact hc) hlast]
    rw [ih (rank + 1) _ (fun x hx => htame x (List.mem_cons_of_mem _ hx))
      (fun l hl => hhdr l (by
        rw [show issueLinesList rank (r :: rs') =
          issueLine rank r :: issueLinesList (rank + 1) rs' from rfl]
        exact List.mem_cons_of_mem _ hl))]
    simp

/-- The issues parsed from the composed report's lines. -/
lemma parseIssues_reportLines (s : SummaryVals) (b : BusinessVals)
    (groups : List IssueRec) (today : Str)
    (hhS : headerCond (statusLine s.TotalExceptions today) = false)
    (hhM : headerCond (metricsLine s) = false)
    (hhB : headerCond (businessLine b) = false)
    (htame : ∀ r ∈ topIssues groups, tameIssue r = true)
    (hhdr : ∀ l ∈ issueLinesList 1 (topIssues groups), headerCond l = false) :
    parseIssues (reportLines s b groups today) =
      (topIssues groups).map (fun r => (r.Count, issueDesc r)) := by
  unfold parseIssues reportLines
  simp only [List.cons_append, List.nil_append]
  rw [issuesScan_skip_noheader _ _ hhS]
  rw [issuesScan_skip_noheader _ _ (by decide)]
  rw [issuesScan_skip_noheader _ _ hhM]
  rw [issuesScan_skip_noheader _ _ (by decide)]
  rw [issuesScan_skip_noheader _ _ hhB]
  rw [issuesScan_skip_noheader _ _ (by decide)]
  rw [issuesScan_header _ _ _ (by decide)]
  rw [issuesScan_issueLines (tryMatches_actionLine (topIssues groups) s.TotalExceptions)
    (topIssues groups) 1 [] htame hhdr]
  simp

/-- C1: round-trip of the composer and the parser. For every summary
record, business record and exception-group list (whose top-5 descriptions
are well behaved) and every date string free of newlines and of the
scanner's keywords, composing the report with `format_report` and parsing
it back with `parse_report` recovers the exception, request, dependency,
failed-dependency and P95 values through the renderer's per-field numeric
patterns (modulo thousands-separator formatting, undone by `capValue`), and
recovers exactly the ordered (count, description) issue pairs. -/
theorem c1_round_trip (s : SummaryVals) (b : BusinessVals) (groups : List IssueRec)
    (today : Str)
    (hT : '\n' ∉ today)
    (hbS : bizCond (statusLine s.TotalExceptions today) = false)
    (hmS : metKwCond (statusLine s.TotalExceptions today) = false)
    (hhS : headerCond (statusLine s.TotalExceptions today) = false)
    (hhM : headerCond (metricsLine s) = false)
    (hhB : headerCond (businessLine b) = false)
    (htame : ∀ r ∈ topIssues groups, tameIssue r = true)
    (hhdr : ∀ l ∈ issueLinesList 1 (topIssues groups), headerCond l = false) :
    (findNumBefore "exception".data
        (metricsClean2 (parse_report (format_report s b groups today)).metrics)).map
        capValue = some s.TotalExceptions ∧
    (findNumBefore "request".data
        (metricsClean2 (parse_report (format_report s b groups today)).metrics)).map
        capValue = some s.TotalRequests ∧
    (findNumBefore "dependencies".data
        (metricsClean2 (parse_report (format_report s b groups today)).metrics)).map
        capValue = some s.TotalDependencies ∧
    (findFailed
        (metricsClean2 (parse_report (format_report s b groups today)).metrics)).map
        capValue = some s.FailedDependencies ∧
    (findP95
        (metricsClean2 (parse_report (format_report s b groups today)).metrics)).map
        capValue = some s.P95ResponseTime ∧
    (parse_report (format_report s b groups today)).issues =
      (topIssues groups).map (fun r => (r.Count, issueDesc r)) := by
  have hlines : splitNL (pstrip (format_report s b groups today)) =
      reportLines s b groups today :=
    report_lines_eq s b groups today hT (fun r hr => by
      obtain ⟨c, u, _, _, _, _, _, hnl⟩ := tameIssue_spec (htame r hr)
      exact hnl)
  have hmet : (parse_report (format_report s b groups today)).metrics = metValue s := by
    unfold parse_report
    dsimp only
    rw [hlines]
    exact scanMetrics_reportLines s b groups today hbS hmS
  have hclean : metricsClean2 (parse_report (format_report s b groups today)).metrics =
      metValue s := by
    rw [hmet]
    exact metricsClean2_metValue s
  have hiss : (parse_report (format_report s b groups today)).issues =
      (topIssues groups).map (fun r => (r.Count, issueDesc r)) := by
    unfold parse_report
    dsimp only
    rw [hlines]
    exact parseIssues_reportLines s b groups today hhS hhM hhB htame hhdr
  rw [hclean]
  refine ⟨?_, ?_, ?_, ?_, ?_, hiss⟩
  · rw [findNumBefore_exceptions, Option.map_some', capValue_fmtComma]
  · rw [findNumBefore_requests, Option.map_some', capValue_fmtComma]
  · rw [findNumBefore_dependencies, Option.map_some', capValue_fmtComma]
  · rw [findFailed_metValue, Option.map_some', capValue_fmtComma]
  · rw [findP95_metValue, Option.map_some', capValue_natDigits]

set_option maxRecDepth 4000 in
theorem c1_round_trip_witness :
    ('\n' ∉ "October 12, 2026".data) ∧
    bizCond (statusLine 1234 "October 12, 2026".data) = false ∧
    (∀ r ∈ topIssues [⟨5, "TypeError".data, [], "boom".data,
        "TypeError at Queue.run".data⟩,
      (⟨3, "ValueError".data, [], "bad".data, []⟩ : IssueRec)], tameIssue r = true) ∧
    ((findNumBefore "exception".data
        (metricsClean2 (parse_report (format_report ⟨1234, 56789, 432, 12, 245⟩ ⟨5, 6, 7⟩
          [⟨5, "TypeError".data, [], "boom".data, "TypeError at Queue.run".data⟩,
           ⟨3, "ValueError".data, [], "bad".data, []⟩]
          "October 12, 2026".data)).metrics)).map capValue = some 1234 ∧
     (findNumBefore "request".data
        (metricsClean2 (parse_report (format_report ⟨1234, 56789, 432, 12, 245⟩ ⟨5, 6, 7⟩
          [⟨5, "TypeError".data, [], "boom".data, "TypeError at Queue.run".data⟩,
           ⟨3, "ValueError".data, [], "bad".data, []⟩]
          "October 12, 2026".data)).metrics)).map capValue = some 56789 ∧
     (findNumBefore "dependencies".data
        (metricsClean2 (parse_report (format_report ⟨1234, 56789, 432, 12, 245⟩ ⟨5, 6, 7⟩
          [⟨5, "TypeError".data, [], "boom".data, "TypeError at Queue.run".data⟩,
           ⟨3, "ValueError".data, [], "bad".data, []⟩]
          "October 12, 2026".data)).metrics)).map capValue = some 432 ∧
     (findFailed
        (metricsClean2 (parse_report (format_report ⟨1234, 56789, 432, 12, 245⟩ ⟨5, 6, 7⟩
          [⟨5, "TypeError".data, [], "boom".data, "TypeError at Queue.run".data⟩,
           ⟨3, "ValueError".data, [], "bad".data, []⟩]
          "October 12, 2026".data)).metrics)).map capValue = some 12 ∧
     (findP95
        (metricsClean2 (parse_report (format_report ⟨1234, 56789, 432, 12, 245⟩ ⟨5, 6, 7⟩
          [⟨5, "TypeError".data, [], "boom".data, "TypeError at Queue.run".data⟩,
           ⟨3, "ValueError".data, [], "bad".data, []⟩]
          "October 12, 2026".data)).metrics)).map capValue = some 245 ∧
     (parse_report (format_report ⟨1234, 56789, 432, 12, 245⟩ ⟨5, 6, 7⟩
          [⟨5, "TypeError".data, [], "boom".data, "TypeError at Queue.run".data⟩,
           ⟨3, "ValueError".data, [], "bad".data, []⟩]
          "October 12, 2026".data)).issues =
       (topIssues [⟨5, "TypeError".data, [], "boom".data, "TypeError at Queue.run".data⟩,
          (⟨3, "ValueError".data, [], "bad".data, []⟩ : IssueRec)]).map
         (fun r => (r.Count, issueDesc r))) :=
  ⟨by decide, by decide, by decide,
    c1_round_trip ⟨1234, 56789, 432, 12, 245⟩ ⟨5, 6, 7⟩
      [⟨5, "TypeError".data, [], "boom".data, "TypeError at Queue.run".data⟩,
       ⟨3, "ValueError".data, [], "bad".data, []⟩]
      "October 12, 2026".data
      (by decide) (by decide) (by decide) (by decide) (by decide) (by decide)
      (by decide) (by decide)⟩
